import Mathlib

/-!
Verification development for the `mapper` Go repository: a shallow embedding,
in Lean 4, of the repository's recursive struct-mapping engine (the most
complete source variant: the depth-bounded `runMapping`/`assignValue` pair,
`assignStruct`/`assignNestedValue` with lazy path building, `assignSlice`,
`assignMap`, `assignPointerElement`, `convertString`, and the struct-metadata
index), together with theorems settling the specification's claims.

Scope of the embedded fragment: records (structs), sequences (slices),
associative maps, optionals (pointers), strings, booleans, and the signed and
unsigned fixed-width integer families.  Floating-point types, rune-string
integer conversions and byte-slice conversions are outside the fragment (no
claim depends on them).  Reflection-based type identity is modelled by
structural equality of the `Ty` codes below; `reflect.Type.String()` by
`Ty.render`.  Go's unspecified map/struct-field iteration order is modelled
by an explicit iteration-order oracle threaded through the engine; the
default `idOracle` fixes declaration order.
-/

set_option maxHeartbeats 1000000

namespace Mapper

/-- The distinct signed integer types of Go: `int`, `int8` … `int64`.
(`int` is 64 bits wide on the reference platform but is a distinct type.) -/
inductive IW where
  | iPlain
  | i8
  | i16
  | i32
  | i64
deriving DecidableEq, Repr

/-- The distinct unsigned integer types of Go: `uint`, `uint8` … `uint64`. -/
inductive UW where
  | uPlain
  | u8
  | u16
  | u32
  | u64
deriving DecidableEq, Repr

/-- Bit width of a signed integer type (platform width 64 for plain `int`). -/
def iBits : IW → Nat
  | .iPlain => 64
  | .i8 => 8
  | .i16 => 16
  | .i32 => 32
  | .i64 => 64

/-- Bit width of an unsigned integer type. -/
def uBits : UW → Nat
  | .uPlain => 64
  | .u8 => 8
  | .u16 => 16
  | .u32 => 32
  | .u64 => 64

mutual

/-- Go types of the embedded fragment.  A struct type carries its printed
name (as `reflect.Type.String()` would render it, e.g. `"mapper.SrcPerson"`)
and its declared field list.  Type identity (`==` on `reflect.Type`) is
modelled by decidable equality of `Ty`. -/
inductive Ty where
  | tString
  | tBool
  | tInt (w : IW)
  | tUint (w : UW)
  | tStruct (name : String) (fields : FieldList)
  | tSlice (elem : Ty)
  | tMap (key : Ty) (val : Ty)
  | tPtr (elem : Ty)
deriving DecidableEq, Repr

/-- Declared fields of a struct type, in declaration order: field name,
exportedness, the struct-tag key/value pairs, and the field's type. -/
inductive FieldList where
  | fnil
  | fcons (name : String) (exported : Bool) (tags : List (String × String)) (ty : Ty) (tl : FieldList)
deriving DecidableEq, Repr

end

mutual

/-- Go values of the embedded fragment.  Composite values carry the type
information `reflect` would expose.  Nil-ness of slices, maps and pointers is
a constructor distinction (`…Nil` vs `…Mk`), exactly as in Go, where a nil
slice and an empty slice are different observable values. -/
inductive Value where
  | vString (s : String)
  | vInt (w : IW) (n : Int)
  | vUint (w : UW) (n : Nat)
  | vBool (b : Bool)
  | vStruct (name : String) (decls : FieldList) (vals : VList)
  | vSliceNil (elem : Ty)
  | vSliceMk (elem : Ty) (elems : VList)
  | vMapNil (key : Ty) (val : Ty)
  | vMapMk (key : Ty) (val : Ty) (entries : EList)
  | vPtrNil (pointee : Ty)
  | vPtrMk (pointee : Ty) (inner : Value)
deriving DecidableEq, Repr

/-- A list of values (struct field values in declaration order, or slice
elements in index order). -/
inductive VList where
  | vnil
  | vcons (hd : Value) (tl : VList)
deriving DecidableEq, Repr

/-- Map entries in the map's internal (insertion) order.  Go exposes map
entries in unspecified order; the engine's iteration order over an `EList`
is chosen by the iteration oracle. -/
inductive EList where
  | enil
  | econs (key : Value) (val : Value) (tl : EList)
deriving DecidableEq, Repr

end

/-- The runtime type of a value (`reflect.Value.Type()`). -/
def tyOfV : Value → Ty
  | .vString _ => .tString
  | .vInt w _ => .tInt w
  | .vUint w _ => .tUint w
  | .vBool _ => .tBool
  | .vStruct name decls _ => .tStruct name decls
  | .vSliceNil e => .tSlice e
  | .vSliceMk e _ => .tSlice e
  | .vMapNil k v => .tMap k v
  | .vMapMk k v _ => .tMap k v
  | .vPtrNil e => .tPtr e
  | .vPtrMk e _ => .tPtr e

/-- `reflect.Type.String()` for the fragment.  Struct types print their
given name only, as Go does for defined types. -/
def Ty.render : Ty → String
  | .tString => "string"
  | .tBool => "bool"
  | .tInt .iPlain => "int"
  | .tInt .i8 => "int8"
  | .tInt .i16 => "int16"
  | .tInt .i32 => "int32"
  | .tInt .i64 => "int64"
  | .tUint .uPlain => "uint"
  | .tUint .u8 => "uint8"
  | .tUint .u16 => "uint16"
  | .tUint .u32 => "uint32"
  | .tUint .u64 => "uint64"
  | .tStruct name _ => name
  | .tSlice e => "[]" ++ Ty.render e
  | .tMap k v => "map[" ++ Ty.render k ++ "]" ++ Ty.render v
  | .tPtr e => "*" ++ Ty.render e

/-- Kind test: struct. -/
def isStructTy : Ty → Bool
  | .tStruct _ _ => true
  | _ => false

/-- Kind test: slice. -/
def isSliceTy : Ty → Bool
  | .tSlice _ => true
  | _ => false

/-- Kind test: map. -/
def isMapTy : Ty → Bool
  | .tMap _ _ => true
  | _ => false

/-- Kind test: pointer. -/
def isPtrTy : Ty → Bool
  | .tPtr _ => true
  | _ => false

/-- Kind test: string. -/
def isStringTy : Ty → Bool
  | .tString => true
  | _ => false

/-- The composite-kind test used throughout the source
(`Kind() == Struct || Slice || Map || Ptr`). -/
def isCompositeTy (t : Ty) : Bool :=
  isStructTy t || isSliceTy t || isMapTy t || isPtrTy t

/-- Go `AssignableTo` restricted to the fragment: type identity. -/
def assignableTo (s d : Ty) : Bool := s == d

/-- Numeric types of the fragment. -/
def numericTy : Ty → Bool
  | .tInt _ => true
  | .tUint _ => true
  | _ => false

/-- Go `ConvertibleTo` restricted to the fragment: identical types, or any
two integer types (any signedness and width).  Conversions that leave the
fragment (integer to rune-string, string to byte slice, floating point) are
not modelled; no claim depends on them. -/
def convertibleTo (s d : Ty) : Bool :=
  s == d || (numericTy s && numericTy d)

/-- Two's-complement truncation of an integer to a signed width. -/
def toSigned (w : IW) (n : Int) : Int :=
  ((n + 2 ^ (iBits w - 1)) % (2 ^ iBits w : Int)) - 2 ^ (iBits w - 1)

/-- Truncation of an integer to an unsigned width. -/
def toUnsigned (w : UW) (n : Int) : Nat :=
  (n % (2 ^ uBits w : Int)).toNat

/-- Go `reflect.Value.Convert` restricted to the fragment: numeric
conversions truncate in two's complement; identical-type conversion is the
identity (the final catch-all, reached only under `convertibleTo`). -/
def convertVal (v : Value) (d : Ty) : Value :=
  match v, d with
  | .vInt _ n, .tInt w => .vInt w (toSigned w n)
  | .vInt _ n, .tUint w => .vUint w (toUnsigned w n)
  | .vUint _ n, .tInt w => .vInt w (toSigned w (Int.ofNat n))
  | .vUint _ n, .tUint w => .vUint w (toUnsigned w (Int.ofNat n))
  | v, _ => v

mutual

/-- Go `reflect.Zero` for the fragment: zero numbers, empty string, false,
a struct of zero fields, and nil slices, maps and pointers. -/
def zeroValue : Ty → Value
  | .tString => .vString ""
  | .tBool => .vBool false
  | .tInt w => .vInt w 0
  | .tUint w => .vUint w 0
  | .tStruct name fields => .vStruct name fields (zeroFields fields)
  | .tSlice e => .vSliceNil e
  | .tMap k v => .vMapNil k v
  | .tPtr e => .vPtrNil e

/-- Zero values of a struct's declared fields, in order. -/
def zeroFields : FieldList → VList
  | .fnil => .vnil
  | .fcons _ _ _ ty tl => .vcons (zeroValue ty) (zeroFields tl)

end

mutual

/-- Go `reflect.Value.IsZero` for the fragment (used by the
skip-zero-source policy): a struct is zero when all its fields are. -/
def isZeroV : Value → Bool
  | .vString s => s == ""
  | .vInt _ n => n == 0
  | .vUint _ n => n == 0
  | .vBool b => b == false
  | .vStruct _ _ vals => isZeroL vals
  | .vSliceNil _ => true
  | .vSliceMk _ _ => false
  | .vMapNil _ _ => true
  | .vMapMk _ _ _ => false
  | .vPtrNil _ => true
  | .vPtrMk _ _ => false

/-- All values in the list are zero. -/
def isZeroL : VList → Bool
  | .vnil => true
  | .vcons v tl => isZeroV v && isZeroL tl

end

/-- Number of elements in a value list (`reflect.Value.Len`). -/
def VList.len : VList → Nat
  | .vnil => 0
  | .vcons _ tl => 1 + VList.len tl

/-- Positional field access (`reflect.Value.FieldByIndex` with a one-element
index path, which is what the metadata index produces for direct fields).
The fallback value is never reached on well-formed inputs. -/
def VList.get : VList → Nat → Value
  | .vnil, _ => .vBool false
  | .vcons v _, 0 => v
  | .vcons _ tl, n + 1 => VList.get tl n

/-- Positional field update (the effect of `Set` on a struct field). -/
def VList.set : VList → Nat → Value → VList
  | .vnil, _, _ => .vnil
  | .vcons _ tl, 0, v => .vcons v tl
  | .vcons v0 tl, n + 1, v => .vcons v0 (VList.set tl n v)

/-- Conversion to a standard list, for stating lemmas. -/
def VList.toList : VList → List Value
  | .vnil => []
  | .vcons v tl => v :: VList.toList tl

/-- Number of map entries (`reflect.Value.Len` on a map). -/
def EList.len : EList → Nat
  | .enil => 0
  | .econs _ _ tl => 1 + EList.len tl

/-- Go `SetMapIndex` with a non-zero value: replace the value stored for an
`==`-equal key, keeping the originally stored key, else append the entry. -/
def EList.setKey : EList → Value → Value → EList
  | .enil, k, v => .econs k v .enil
  | .econs k0 v0 tl, k, v =>
    if k0 == k then .econs k0 v tl else .econs k0 v0 (EList.setKey tl k v)

/-- Go map lookup (`MapIndex`): the value stored for an `==`-equal key. -/
def EList.getKey : EList → Value → Option Value
  | .enil, _ => none
  | .econs k0 v0 tl, k => if k0 == k then some v0 else EList.getKey tl k

/-- Conversion to a standard list of pairs, for stating lemmas. -/
def EList.toList : EList → List (Value × Value)
  | .enil => []
  | .econs k v tl => (k, v) :: EList.toList tl

/-- The structured failure value of `error.go`: source and destination type
names, the dotted/bracketed field path, and the reason string. -/
structure MappingError where
  SrcType : String
  DstType : String
  FieldPath : String
  Reason : String
deriving DecidableEq, Repr

/-- `buildPath` of part_006: dot-join a base path and a field name. -/
def buildPath (basePath fieldName : String) : String :=
  if basePath == "" then fieldName else basePath ++ "." ++ fieldName

/-- `buildSlicePath` of slice.go: append a bracketed index. -/
def buildSlicePath (basePath : String) (index : Nat) : String :=
  basePath ++ "[" ++ toString index ++ "]"

/-- `formatMapKey` of options.go: textual rendering of a map key for path
purposes (strings verbatim, integers in decimal, other kinds opaque). -/
def formatMapKey : Value → String
  | .vString s => s
  | .vInt _ n => toString n
  | .vUint _ n => toString n
  | _ => "<key>"

/-- `buildMapPath` of options.go: append a bracketed key rendering. -/
def buildMapPath (basePath : String) (key : Value) : String :=
  basePath ++ "[" ++ formatMapKey key ++ "]"

/-- `prependIndexPath` of slice.go: prepend the bracketed slice index to a
nested error's field path (called only on the error path). -/
def prependIndexPath (me : MappingError) (basePath : String) (index : Nat) : MappingError :=
  let indexPath := buildSlicePath basePath index
  if me.FieldPath != "" then { me with FieldPath := indexPath ++ "." ++ me.FieldPath }
  else { me with FieldPath := indexPath }

/-- `prependMapKeyPath` of options.go: prepend the bracketed map key to a
nested error's field path (called only on the error path). -/
def prependMapKeyPath (me : MappingError) (basePath : String) (key : Value) : MappingError :=
  let keyPath := buildMapPath basePath key
  if me.FieldPath != "" then { me with FieldPath := keyPath ++ "." ++ me.FieldPath }
  else { me with FieldPath := keyPath }

/-- The depth-exhaustion reason string used by every depth check. -/
def depthReason : String := "maximum nesting depth exceeded (possible circular reference)"

/-- The depth-exhaustion error produced at entry of every recursive step. -/
def depthErr (srcStructType dstStructType : Ty) (fieldPath : String) : MappingError :=
  { SrcType := srcStructType.render, DstType := dstStructType.render,
    FieldPath := fieldPath, Reason := depthReason }

/-! ### The strconv fragment used by `convertString` -/

/-- Failure classes of Go's `strconv` parsers. -/
inductive ParseErrKind where
  | invalidSyntax
  | outOfRange
deriving DecidableEq, Repr

/-- The message text of a `strconv` failure class. -/
def parseErrText : ParseErrKind → String
  | .invalidSyntax => "invalid syntax"
  | .outOfRange => "value out of range"

/-- `(*strconv.NumError).Error()`: the parser name, the offending text and
the failure class. -/
def goParseErr (fn s : String) (k : ParseErrKind) : String :=
  "strconv." ++ fn ++ ": parsing \"" ++ s ++ "\": " ++ parseErrText k

/-- Decimal digit accumulation; fails on any non-digit character. -/
def decDigitsAux : List Char → Nat → Option Nat
  | [], acc => some acc
  | c :: cs, acc =>
    if c.isDigit then decDigitsAux cs (acc * 10 + (c.toNat - 48)) else none

/-- A non-empty run of decimal digits, as a number. -/
def decDigits? : List Char → Option Nat
  | [] => none
  | cs => decDigitsAux cs 0

/-- Go `strconv.ParseUint(s, 10, bits)`: decimal digits with no sign;
values of `bits` bits; out-of-range values are a distinct failure. -/
def parseUintGo (s : String) (bits : Nat) : Except ParseErrKind Nat :=
  match decDigits? s.data with
  | none => .error .invalidSyntax
  | some n => if n < 2 ^ bits then .ok n else .error .outOfRange

/-- Go `strconv.ParseInt(s, 10, bits)`: an optional sign then decimal
digits; range `[-2^(bits-1), 2^(bits-1)-1]`. -/
def parseIntGo (s : String) (bits : Nat) : Except ParseErrKind Int :=
  let signed : Option Int :=
    match s.data with
    | '+' :: cs => (decDigits? cs).map (fun n => (n : Int))
    | '-' :: cs => (decDigits? cs).map (fun n => -(n : Int))
    | cs => (decDigits? cs).map (fun n => (n : Int))
  match signed with
  | none => .error .invalidSyntax
  | some v =>
    if -(2 ^ (bits - 1) : Int) ≤ v ∧ v ≤ 2 ^ (bits - 1) - 1 then .ok v
    else .error .outOfRange

/-- Go `strconv.ParseBool`: exactly the listed truthy and falsy spellings. -/
def parseBoolGo (s : String) : Except ParseErrKind Bool :=
  if s == "1" || s == "t" || s == "T" || s == "true" || s == "TRUE" || s == "True" then .ok true
  else if s == "0" || s == "f" || s == "F" || s == "false" || s == "FALSE" || s == "False" then .ok false
  else .error .invalidSyntax

/-- `conversionError` of convert.go: the failure reason embeds the offending
text, the target kind name, and the underlying parser complaint. -/
def conversionError (str targetType parseErr : String) (srcStructType dstStructType : Ty) (fieldPath : String) : MappingError :=
  { SrcType := srcStructType.render, DstType := dstStructType.render, FieldPath := fieldPath,
    Reason := "cannot convert \"" ++ str ++ "\" to " ++ targetType ++ ": " ++ parseErr }

/-- `convertString` of convert.go, restricted to the fragment: the integer
and boolean targets.  The source also supports `float32` and `float64` via
`strconv.ParseFloat`; floating point is outside the embedded fragment and no
claim exercises those two directives, so they are omitted here (theorems
quantify over directives only within the modelled set). -/
def convertString (str targetType : String) (srcStructType dstStructType : Ty) (fieldPath : String) : Except MappingError Value :=
  if targetType == "int" then
    match parseIntGo str 64 with
    | .error e => .error (conversionError str targetType (goParseErr "ParseInt" str e) srcStructType dstStructType fieldPath)
    | .ok v => .ok (.vInt .iPlain v)
  else if targetType == "int8" then
    match parseIntGo str 8 with
    | .error e => .error (conversionError str targetType (goParseErr "ParseInt" str e) srcStructType dstStructType fieldPath)
    | .ok v => .ok (.vInt .i8 v)
  else if targetType == "int16" then
    match parseIntGo str 16 with
    | .error e => .error (conversionError str targetType (goParseErr "ParseInt" str e) srcStructType dstStructType fieldPath)
    | .ok v => .ok (.vInt .i16 v)
  else if targetType == "int32" then
    match parseIntGo str 32 with
    | .error e => .error (conversionError str targetType (goParseErr "ParseInt" str e) srcStructType dstStructType fieldPath)
    | .ok v => .ok (.vInt .i32 v)
  else if targetType == "int64" then
    match parseIntGo str 64 with
    | .error e => .error (conversionError str targetType (goParseErr "ParseInt" str e) srcStructType dstStructType fieldPath)
    | .ok v => .ok (.vInt .i64 v)
  else if targetType == "uint" then
    match parseUintGo str 64 with
    | .error e => .error (conversionError str targetType (goParseErr "ParseUint" str e) srcStructType dstStructType fieldPath)
    | .ok v => .ok (.vUint .uPlain v)
  else if targetType == "uint8" then
    match parseUintGo str 8 with
    | .error e => .error (conversionError str targetType (goParseErr "ParseUint" str e) srcStructType dstStructType fieldPath)
    | .ok v => .ok (.vUint .u8 v)
  else if targetType == "uint16" then
    match parseUintGo str 16 with
    | .error e => .error (conversionError str targetType (goParseErr "ParseUint" str e) srcStructType dstStructType fieldPath)
    | .ok v => .ok (.vUint .u16 v)
  else if targetType == "uint32" then
    match parseUintGo str 32 with
    | .error e => .error (conversionError str targetType (goParseErr "ParseUint" str e) srcStructType dstStructType fieldPath)
    | .ok v => .ok (.vUint .u32 v)
  else if targetType == "uint64" then
    match parseUintGo str 64 with
    | .error e => .error (conversionError str targetType (goParseErr "ParseUint" str e) srcStructType dstStructType fieldPath)
    | .ok v => .ok (.vUint .u64 v)
  else if targetType == "bool" then
    match parseBoolGo str with
    | .error e => .error (conversionError str targetType (goParseErr "ParseBool" str e) srcStructType dstStructType fieldPath)
    | .ok v => .ok (.vBool v)
  else
    .error { SrcType := srcStructType.render, DstType := dstStructType.render, FieldPath := fieldPath,
             Reason := "unsupported mapconv target type: " ++ targetType }

/-! ### The metadata index of cache.go

The `sync.Map` cache is pure memoization of the pure function
`buildStructMeta` (first-writer-wins of identical values), so the model is
the function itself. -/

/-- `fieldMeta` of cache.go.  `Index` is the field's position among the
declared fields (Go's one-element index path for direct fields). -/
structure FieldMetaM where
  Name : String
  Index : Nat
  Typ : Ty
  Tag : String
  ConvertTo : String
deriving DecidableEq, Repr

/-- `structMeta` of cache.go: the two lookup tables, in insertion order, and
the composite-fields flag. -/
structure StructMeta where
  Typ : Ty
  FieldsByName : List (String × FieldMetaM)
  FieldsByTag : List (String × FieldMetaM)
  HasComposite : Bool
deriving DecidableEq, Repr

/-- `StructTag.Get`: the value declared under a tag key, or empty. -/
def tagGet (tags : List (String × String)) (k : String) : String :=
  match List.lookup k tags with
  | some v => v
  | none => ""

/-- Go map assignment `m[k] = v` on an insertion-ordered association list:
replace the value of an existing key in place, else append. -/
def insertAssoc {β : Type} : List (String × β) → String → β → List (String × β)
  | [], k, v => [(k, v)]
  | (k0, v0) :: tl, k, v =>
    if k0 == k then (k0, v) :: tl else (k0, v0) :: insertAssoc tl k v

/-- The field loop of `buildStructMeta`: skip unexported fields, record the
composite flag, read the `mapconv` directive and the alias tag, and insert
into both lookup tables. -/
def buildFieldsAux (tagName : String) : FieldList → Nat → StructMeta → StructMeta
  | .fnil, _, m => m
  | .fcons name exported tags ty tl, i, m =>
    if exported then
      let m1 := if isCompositeTy ty then { m with HasComposite := true } else m
      let meta0 : FieldMetaM := { Name := name, Index := i, Typ := ty, Tag := "", ConvertTo := "" }
      let convTag := tagGet tags "mapconv"
      let meta1 := if convTag != "" then { meta0 with ConvertTo := convTag } else meta0
      let tag := if tagName != "" then tagGet tags tagName else ""
      let meta2 := if tag != "" then { meta1 with Tag := tag } else meta1
      let m2 := { m1 with FieldsByName := insertAssoc m1.FieldsByName name meta2 }
      let m3 :=
        if tagName != "" && tag != "" then
          { m2 with FieldsByTag := insertAssoc m2.FieldsByTag tag meta2 }
        else m2
      buildFieldsAux tagName tl (i + 1) m3
    else
      buildFieldsAux tagName tl (i + 1) m

/-- `buildStructMeta` of cache.go (pure: the cache only memoizes it). -/
def buildStructMeta (t : Ty) (tagName : String) : StructMeta :=
  match t with
  | .tStruct _ fields =>
    buildFieldsAux tagName fields 0
      { Typ := t, FieldsByName := [], FieldsByTag := [], HasComposite := false }
  | _ => { Typ := t, FieldsByName := [], FieldsByTag := [], HasComposite := false }

/-- `getStructMeta` of cache.go: fails exactly when the queried type is not
a record type. -/
def getStructMeta (t : Ty) (tagName : String) : Except MappingError StructMeta :=
  if isStructTy t then .ok (buildStructMeta t tagName)
  else .error { SrcType := "", DstType := "", FieldPath := "", Reason := "type is not a struct" }

/-! ### The recursive assignment engine

The mutual recursion of `assignValue` (part_005), `assignStruct` and
`assignNestedValue` (part_006), `assignSlice`, `assignPointerElement`
(slice.go) and `assignMap` (options.go) bottoms out on the depth budget:
every function checks its budget at entry and every recursive call passes
`depth-1`, except `assignStruct`'s per-field calls to `assignNestedValue`,
which keep the caller's budget.  The embedding therefore builds, by
structural recursion on the budget, a bundle of the six functions at each
budget level: level `d+1` refers to level `d` exactly where the source
passes `depth-1`, and `assignNestedValue` at the same level is a local
definition inside the bundle, exactly where the source keeps `depth`.
Mutation of the destination is modelled by returning the destination's new
value.  The `CanSet` guard of the source is omitted: every destination
location the engine passes is settable (an exported field of an addressable
struct, a fresh allocation, or a fresh slice element), so the guard never
fires.  All six functions of a bundle are total and structural, so concrete
runs reduce inside the kernel. -/

/-- The projection of a struct value's field list. -/
def structVals : Value → VList
  | .vStruct _ _ vals => vals
  | _ => .vnil

/-- Update one field of a struct value (the effect of `Set` on the field). -/
def setStructField : Value → Nat → Value → Value
  | .vStruct name decls vals, i, v => .vStruct name decls (vals.set i v)
  | v, _, _ => v

/-- `reflect.Value.String()` of a value of string kind. -/
def stringOf : Value → String
  | .vString s => s
  | _ => ""

/-- `(*MappingError).Error()` of error.go: the formatted message. -/
def renderErr (e : MappingError) : String :=
  "mapper: cannot map " ++ e.SrcType ++ " → " ++ e.DstType ++ " at field \"" ++ e.FieldPath ++ "\": " ++ e.Reason

/-- The iteration-order oracle: Go iterates its hash maps in unspecified
order, so the engine takes the order over destination-field tables and over
map entries as a parameter.  A faithful oracle returns a permutation of its
input; `idOracle` fixes declaration/insertion order. -/
structure IterOracle where
  fieldOrd : List (String × FieldMetaM) → List (String × FieldMetaM)
  entryOrd : EList → EList

/-- The declaration-order oracle. -/
def idOracle : IterOracle := { fieldOrd := id, entryOrd := id }

/-- One budget level of the engine: the six mutually recursive assignment
functions of the source, with the depth argument factored out as the
bundle's level. -/
structure Engine where
  assignValue : Value → Value → Ty → Ty → String → String → String → Except MappingError Value
  assignStruct : Value → Value → Ty → Ty → String → String → Except MappingError Value
  assignNestedValue : Value → Value → Ty → Ty → String → String → String → String → Except MappingError Value
  assignSlice : Value → Value → Ty → Ty → String → String → Except MappingError Value
  assignMap : Value → Value → Ty → Ty → String → String → Except MappingError Value
  assignPointerElement : Value → Value → Ty → Ty → String → String → Except MappingError Value

/-- The per-field loop of `assignStruct` (part_006): resolve each
destination field by name then by alias against the source's tables, skip
silently when unmatched, and invoke `assignNestedValue` (at the caller's
budget) on matched pairs, committing each assigned field in turn. -/
def structLoop (anv : Value → Value → Ty → Ty → String → String → String → String → Except MappingError Value)
    (src : Value) (srcMeta : StructMeta) (srcStructType dstStructType : Ty)
    (fieldPath tagName : String) :
    List (String × FieldMetaM) → Value → Except MappingError Value
  | [], dst => .ok dst
  | (dstName, dstFieldMeta) :: rest, dst =>
    let srcFieldMeta? :=
      match List.lookup dstName srcMeta.FieldsByName with
      | some m => some m
      | none => List.lookup dstName srcMeta.FieldsByTag
    match srcFieldMeta? with
    | none => structLoop anv src srcMeta srcStructType dstStructType fieldPath tagName rest dst
    | some srcFieldMeta =>
      let srcField := (structVals src).get srcFieldMeta.Index
      let dstField := (structVals dst).get dstFieldMeta.Index
      match anv dstField srcField srcStructType dstStructType fieldPath dstName tagName srcFieldMeta.ConvertTo with
      | .error e => .error e
      | .ok v =>
        structLoop anv src srcMeta srcStructType dstStructType fieldPath tagName rest
          (setStructField dst dstFieldMeta.Index v)

/-- The per-element loop of `assignSlice` (slice.go): dispatch each element
on the pre-computed element-shape flags, through the `…WithIndex` wrappers
that lazily prepend the bracketed index to a nested failure. -/
def sliceLoop (prev : Engine) (srcStructType dstStructType : Ty) (fieldPath tagName : String)
    (aStructs aSlices aMaps aPtrs aAssign aConv : Bool) (dstElemType : Ty) :
    VList → Nat → Except MappingError VList
  | .vnil, _ => .ok .vnil
  | .vcons srcElem rest, i =>
    let step : Except MappingError Value :=
      if aStructs then
        match prev.assignStruct (zeroValue dstElemType) srcElem srcStructType dstStructType "" tagName with
        | .error e => .error (prependIndexPath e fieldPath i)
        | .ok v => .ok v
      else if aSlices then
        match prev.assignSlice (zeroValue dstElemType) srcElem srcStructType dstStructType "" tagName with
        | .error e => .error (prependIndexPath e fieldPath i)
        | .ok v => .ok v
      else if aMaps then
        match prev.assignMap (zeroValue dstElemType) srcElem srcStructType dstStructType "" tagName with
        | .error e => .error (prependIndexPath e fieldPath i)
        | .ok v => .ok v
      else if aPtrs then
        match prev.assignPointerElement (zeroValue dstElemType) srcElem srcStructType dstStructType "" tagName with
        | .error e => .error (prependIndexPath e fieldPath i)
        | .ok v => .ok v
      else if aAssign then .ok srcElem
      else if aConv then .ok (convertVal srcElem dstElemType)
      else .ok srcElem
    match step with
    | .error e => .error e
    | .ok v =>
      match sliceLoop prev srcStructType dstStructType fieldPath tagName
          aStructs aSlices aMaps aPtrs aAssign aConv dstElemType rest (i + 1) with
      | .error e => .error e
      | .ok tail => .ok (.vcons v tail)

/-- The per-entry loop of `assignMap` (options.go): copy or convert the key,
dispatch the value on the pre-computed shape flags (recursing into a fresh
zero destination), lazily prepend the bracketed key on failure, and commit
each entry with `SetMapIndex` semantics. -/
def mapLoop (prev : Engine) (srcStructType dstStructType : Ty) (fieldPath tagName : String)
    (keysAssignable : Bool) (dstKeyType dstValType : Ty)
    (vStructs vMaps vSlices vPtrs vAssign vConv needsProcessing : Bool) :
    EList → EList → Except MappingError EList
  | .enil, acc => .ok acc
  | .econs srcKey srcVal rest, acc =>
    let dstKey := if keysAssignable then srcKey else convertVal srcKey dstKeyType
    let step : Except MappingError Value :=
      if !needsProcessing && vAssign then .ok srcVal
      else if vStructs then
        match prev.assignStruct (zeroValue dstValType) srcVal srcStructType dstStructType "" tagName with
        | .error e => .error (prependMapKeyPath e fieldPath srcKey)
        | .ok v => .ok v
      else if vMaps then
        match prev.assignMap (zeroValue dstValType) srcVal srcStructType dstStructType "" tagName with
        | .error e => .error (prependMapKeyPath e fieldPath srcKey)
        | .ok v => .ok v
      else if vSlices then
        match prev.assignSlice (zeroValue dstValType) srcVal srcStructType dstStructType "" tagName with
        | .error e => .error (prependMapKeyPath e fieldPath srcKey)
        | .ok v => .ok v
      else if vPtrs then
        match prev.assignPointerElement (zeroValue dstValType) srcVal srcStructType dstStructType "" tagName with
        | .error e => .error (prependMapKeyPath e fieldPath srcKey)
        | .ok v => .ok v
      else if vConv then .ok (convertVal srcVal dstValType)
      else .ok srcVal
    match step with
    | .error e => .error e
    | .ok dstVal =>
      mapLoop prev srcStructType dstStructType fieldPath tagName keysAssignable dstKeyType dstValType
        vStructs vMaps vSlices vPtrs vAssign vConv needsProcessing rest (acc.setKey dstKey dstVal)

/-- The engine at a given depth budget.  Level 0 is the `depth <= 0` entry
check of all six source functions; level `d+1` is each source body with
`depth-1` calls going to level `d` and the same-budget calls of
`assignStruct` to `assignNestedValue` staying inside the level. -/
def mkEngine (o : IterOracle) : Nat → Engine
  | 0 =>
    { assignValue := fun _ _ srcType dstType fieldPath _ _ => .error (depthErr srcType dstType fieldPath)
      assignStruct := fun _ _ srcStructType dstStructType fieldPath _ => .error (depthErr srcStructType dstStructType fieldPath)
      assignNestedValue := fun _ _ srcStructType dstStructType basePath fieldName _ _ =>
        .error (depthErr srcStructType dstStructType (buildPath basePath fieldName))
      assignSlice := fun _ _ srcStructType dstStructType fieldPath _ => .error (depthErr srcStructType dstStructType fieldPath)
      assignMap := fun _ _ srcStructType dstStructType fieldPath _ => .error (depthErr srcStructType dstStructType fieldPath)
      assignPointerElement := fun _ _ srcStructType dstStructType fieldPath _ => .error (depthErr srcStructType dstStructType fieldPath) }
  | d + 1 =>
    let prev := mkEngine o d
    -- assignNestedValue of part_006 at budget d+1 (its pointer recursions
    -- and composite dispatches pass depth-1, i.e. go to `prev`).
    let anv : Value → Value → Ty → Ty → String → String → String → String → Except MappingError Value :=
      fun dst src srcStructType dstStructType basePath fieldName tagName convertTo =>
        let sType := tyOfV src
        let dType := tyOfV dst
        if convertTo != "" && isStringTy sType then
          match convertString (stringOf src) convertTo srcStructType dstStructType (buildPath basePath fieldName) with
          | .error e => .error e
          | .ok converted => .ok (convertVal converted dType)
        else if !(isCompositeTy sType) && !(isCompositeTy dType) then
          -- fast path for primitive fields, checked before any path building
          if assignableTo sType dType then .ok src
          else if convertibleTo sType dType then .ok (convertVal src dType)
          else
            .error { SrcType := srcStructType.render, DstType := dstStructType.render,
                     FieldPath := buildPath basePath fieldName,
                     Reason := "incompatible field types: " ++ sType.render ++ " -> " ++ dType.render }
        else
          let fullPath := buildPath basePath fieldName
          if isStructTy sType && isStructTy dType then
            prev.assignStruct dst src srcStructType dstStructType fullPath tagName
          else if isSliceTy sType && isSliceTy dType then
            prev.assignSlice dst src srcStructType dstStructType fullPath tagName
          else if isMapTy sType && isMapTy dType then
            prev.assignMap dst src srcStructType dstStructType fullPath tagName
          else if isPtrTy sType && isPtrTy dType then
            match src, dType with
            | .vPtrNil _, _ => .ok (zeroValue dType)
            | .vPtrMk _ inner, .tPtr dstElemType =>
              match prev.assignNestedValue (zeroValue dstElemType) inner srcStructType dstStructType fullPath "" tagName convertTo with
              | .error e => .error e
              | .ok v => .ok (.vPtrMk dstElemType v)
            | _, _ => .ok dst
          else if isPtrTy sType && !(isPtrTy dType) then
            match src with
            | .vPtrNil _ => .ok dst
            | .vPtrMk _ inner =>
              prev.assignNestedValue dst inner srcStructType dstStructType fullPath "" tagName convertTo
            | _ => .ok dst
          else if !(isPtrTy sType) && isPtrTy dType then
            match dType with
            | .tPtr dstElemType =>
              match prev.assignNestedValue (zeroValue dstElemType) src srcStructType dstStructType fullPath "" tagName convertTo with
              | .error e => .error e
              | .ok v => .ok (.vPtrMk dstElemType v)
            | _ => .ok dst
          else if assignableTo sType dType then .ok src
          else if convertibleTo sType dType then .ok (convertVal src dType)
          else
            .error { SrcType := srcStructType.render, DstType := dstStructType.render,
                     FieldPath := fullPath,
                     Reason := "incompatible field types: " ++ sType.render ++ " -> " ++ dType.render }
    { assignValue := fun dst src srcType dstType fieldPath convertTo tagName =>
        -- assignValue of part_005 at budget d+1
        let sType := tyOfV src
        let dType := tyOfV dst
        if convertTo != "" && isStringTy sType then
          match convertString (stringOf src) convertTo srcType dstType fieldPath with
          | .error e => .error e
          | .ok converted => .ok (convertVal converted dType)
        else if isStructTy sType && isStructTy dType then
          prev.assignStruct dst src srcType dstType fieldPath tagName
        else if isSliceTy sType && isSliceTy dType then
          prev.assignSlice dst src srcType dstType fieldPath tagName
        else if isMapTy sType && isMapTy dType then
          prev.assignMap dst src srcType dstType fieldPath tagName
        else if isPtrTy sType && isPtrTy dType then
          match src, dType with
          | .vPtrNil _, _ => .ok (zeroValue dType)
          | .vPtrMk srcElemType inner, .tPtr dstElemType =>
            if srcElemType == dstElemType && !(isCompositeTy srcElemType) then
              .ok (.vPtrMk dstElemType inner)
            else
              match prev.assignValue (zeroValue dstElemType) inner srcType dstType fieldPath convertTo tagName with
              | .error e => .error e
              | .ok v => .ok (.vPtrMk dstElemType v)
          | _, _ => .ok dst
        else if isPtrTy sType && !(isPtrTy dType) then
          match src with
          | .vPtrNil _ => .ok dst
          | .vPtrMk _ inner => prev.assignValue dst inner srcType dstType fieldPath convertTo tagName
          | _ => .ok dst
        else if !(isPtrTy sType) && isPtrTy dType then
          match dType with
          | .tPtr dstElemType =>
            match prev.assignValue (zeroValue dstElemType) src srcType dstType fieldPath convertTo tagName with
            | .error e => .error e
            | .ok v => .ok (.vPtrMk dstElemType v)
          | _ => .ok dst
        else if assignableTo sType dType then .ok src
        else if convertibleTo sType dType then .ok (convertVal src dType)
        else
          .error { SrcType := srcType.render, DstType := dstType.render, FieldPath := fieldPath,
                   Reason := "incompatible field types: " ++ sType.render ++ " -> " ++ dType.render }
      assignStruct := fun dst src srcStructType dstStructType fieldPath tagName =>
        -- assignStruct of part_006 at budget d+1
        let srcType := tyOfV src
        let dstType := tyOfV dst
        match getStructMeta srcType tagName with
        | .error err =>
          .error { SrcType := srcStructType.render, DstType := dstStructType.render, FieldPath := fieldPath,
                   Reason := "failed to get source struct metadata: " ++ renderErr err }
        | .ok srcMeta =>
          if srcType == dstType && !srcMeta.HasComposite then .ok src
          else
            match getStructMeta dstType tagName with
            | .error err =>
              .error { SrcType := srcStructType.render, DstType := dstStructType.render, FieldPath := fieldPath,
                       Reason := "failed to get destination struct metadata: " ++ renderErr err }
            | .ok dstMeta =>
              structLoop anv src srcMeta srcStructType dstStructType fieldPath tagName
                (o.fieldOrd dstMeta.FieldsByName) dst
      assignNestedValue := anv
      assignSlice := fun dst src srcStructType dstStructType fieldPath tagName =>
        -- assignSlice of slice.go at budget d+1
        match src with
        | .vSliceNil _ => .ok (zeroValue (tyOfV dst))
        | .vSliceMk srcElemType elems =>
          match tyOfV dst with
          | .tSlice dstElemType =>
            if srcElemType == dstElemType && !(isCompositeTy srcElemType) then
              .ok (.vSliceMk dstElemType elems)
            else
              let aStructs := isStructTy srcElemType && isStructTy dstElemType
              let aSlices := isSliceTy srcElemType && isSliceTy dstElemType
              let aMaps := isMapTy srcElemType && isMapTy dstElemType
              let aPtrs := isPtrTy srcElemType && isPtrTy dstElemType
              let aAssign := assignableTo srcElemType dstElemType
              let aConv := convertibleTo srcElemType dstElemType
              if !aAssign && !aConv && !aStructs && !aSlices && !aMaps && !aPtrs then
                .error { SrcType := srcStructType.render, DstType := dstStructType.render, FieldPath := fieldPath,
                         Reason := "slice element types are incompatible: " ++ srcElemType.render ++ " -> " ++ dstElemType.render }
              else
                match sliceLoop prev srcStructType dstStructType fieldPath tagName
                    aStructs aSlices aMaps aPtrs aAssign aConv dstElemType elems 0 with
                | .error e => .error e
                | .ok outElems => .ok (.vSliceMk dstElemType outElems)
          | _ => .ok dst
        | _ => .ok dst
      assignMap := fun dst src srcStructType dstStructType fieldPath tagName =>
        -- assignMap of options.go at budget d+1
        match src with
        | .vMapNil _ _ => .ok (zeroValue (tyOfV dst))
        | .vMapMk srcKeyType srcValType entries =>
          match tyOfV dst with
          | .tMap dstKeyType dstValType =>
            let keysAssignable := assignableTo srcKeyType dstKeyType
            let keysConvertible := convertibleTo srcKeyType dstKeyType
            if !keysAssignable && !keysConvertible then
              .error { SrcType := srcStructType.render, DstType := dstStructType.render, FieldPath := fieldPath,
                       Reason := "map key types are incompatible: " ++ srcKeyType.render ++ " -> " ++ dstKeyType.render }
            else
              let vStructs := isStructTy srcValType && isStructTy dstValType
              let vMaps := isMapTy srcValType && isMapTy dstValType
              let vSlices := isSliceTy srcValType && isSliceTy dstValType
              let vPtrs := isPtrTy srcValType && isPtrTy dstValType
              let vAssign := assignableTo srcValType dstValType
              let vConv := convertibleTo srcValType dstValType
              if !vAssign && !vConv && !vStructs && !vMaps && !vSlices && !vPtrs then
                .error { SrcType := srcStructType.render, DstType := dstStructType.render, FieldPath := fieldPath,
                         Reason := "map value types are incompatible: " ++ srcValType.render ++ " -> " ++ dstValType.render }
              else
                let needsProcessing := vStructs || vMaps || vSlices || vPtrs || (!vAssign && vConv)
                match mapLoop prev srcStructType dstStructType fieldPath tagName keysAssignable
                    dstKeyType dstValType vStructs vMaps vSlices vPtrs vAssign vConv needsProcessing
                    (o.entryOrd entries) .enil with
                | .error e => .error e
                | .ok newMap => .ok (.vMapMk dstKeyType dstValType newMap)
          | _ => .ok dst
        | _ => .ok dst
      assignPointerElement := fun dst src srcStructType dstStructType fieldPath tagName =>
        -- assignPointerElement of slice.go at budget d+1
        match src with
        | .vPtrNil _ => .ok (zeroValue (tyOfV dst))
        | .vPtrMk _ srcElem =>
          match tyOfV dst with
          | .tPtr dstElemType =>
            let sK := tyOfV srcElem
            if isStructTy sK && isStructTy dstElemType then
              match prev.assignStruct (zeroValue dstElemType) srcElem srcStructType dstStructType fieldPath tagName with
              | .error e => .error e
              | .ok v => .ok (.vPtrMk dstElemType v)
            else if isSliceTy sK && isSliceTy dstElemType then
              match prev.assignSlice (zeroValue dstElemType) srcElem srcStructType dstStructType fieldPath tagName with
              | .error e => .error e
              | .ok v => .ok (.vPtrMk dstElemType v)
            else if isMapTy sK && isMapTy dstElemType then
              match prev.assignMap (zeroValue dstElemType) srcElem srcStructType dstStructType fieldPath tagName with
              | .error e => .error e
              | .ok v => .ok (.vPtrMk dstElemType v)
            else if isPtrTy sK && isPtrTy dstElemType then
              match prev.assignPointerElement (zeroValue dstElemType) srcElem srcStructType dstStructType fieldPath tagName with
              | .error e => .error e
              | .ok v => .ok (.vPtrMk dstElemType v)
            else if assignableTo sK dstElemType then .ok (.vPtrMk dstElemType srcElem)
            else if convertibleTo sK dstElemType then .ok (.vPtrMk dstElemType (convertVal srcElem dstElemType))
            else
              .error { SrcType := srcStructType.render, DstType := dstStructType.render, FieldPath := fieldPath,
                       Reason := "incompatible pointer element types: " ++ sK.render ++ " -> " ++ dstElemType.render }
          | _ => .ok dst
        | _ => .ok dst }

/-- `assignValue` of part_005, with the Go argument order (depth last),
under the declaration-order oracle. -/
def assignValue (dst src : Value) (srcType dstType : Ty)
    (fieldPath convertTo tagName : String) (depth : Nat) : Except MappingError Value :=
  (mkEngine idOracle depth).assignValue dst src srcType dstType fieldPath convertTo tagName

/-- `assignStruct` of part_006, under the declaration-order oracle. -/
def assignStruct (dst src : Value) (srcStructType dstStructType : Ty)
    (fieldPath tagName : String) (depth : Nat) : Except MappingError Value :=
  (mkEngine idOracle depth).assignStruct dst src srcStructType dstStructType fieldPath tagName

/-- `assignNestedValue` of part_006, under the declaration-order oracle. -/
def assignNestedValue (dst src : Value) (srcStructType dstStructType : Ty)
    (basePath fieldName tagName convertTo : String) (depth : Nat) : Except MappingError Value :=
  (mkEngine idOracle depth).assignNestedValue dst src srcStructType dstStructType basePath fieldName tagName convertTo

/-- `assignSlice` of slice.go, under the declaration-order oracle. -/
def assignSlice (dst src : Value) (srcStructType dstStructType : Ty)
    (fieldPath tagName : String) (depth : Nat) : Except MappingError Value :=
  (mkEngine idOracle depth).assignSlice dst src srcStructType dstStructType fieldPath tagName

/-- `assignMap` of options.go, under the declaration-order oracle. -/
def assignMap (dst src : Value) (srcStructType dstStructType : Ty)
    (fieldPath tagName : String) (depth : Nat) : Except MappingError Value :=
  (mkEngine idOracle depth).assignMap dst src srcStructType dstStructType fieldPath tagName

/-- `assignPointerElement` of slice.go, under the declaration-order oracle. -/
def assignPointerElement (dst src : Value) (srcStructType dstStructType : Ty)
    (fieldPath tagName : String) (depth : Nat) : Except MappingError Value :=
  (mkEngine idOracle depth).assignPointerElement dst src srcStructType dstStructType fieldPath tagName

/-! ### Configuration, options and the root call -/

/-- `DefaultMaxDepth` of options.go. -/
def DefaultMaxDepth : Nat := 64

/-- `config` of options.go.  The depth bound is a natural number: the
default is positive and `WithMaxDepth` ignores non-positive requests, so a
configuration's bound is always the result of positive assignments. -/
structure Config where
  tagName : String
  ignoreZeroSource : Bool
  strictMode : Bool
  maxDepth : Nat
deriving DecidableEq, Repr

/-- `defaultConfig` of options.go. -/
def defaultConfig : Config :=
  { tagName := "map", ignoreZeroSource := false, strictMode := false, maxDepth := DefaultMaxDepth }

/-- The `Option` function type of options.go (named `MapOption` here to
avoid shadowing Lean's `Option`). -/
def MapOption := Config → Config

/-- `WithTagName` of options.go. -/
def WithTagName (tag : String) : MapOption := fun c => { c with tagName := tag }

/-- `WithIgnoreZeroSource` of options.go. -/
def WithIgnoreZeroSource : MapOption := fun c => { c with ignoreZeroSource := true }

/-- `WithStrictMode` of options.go. -/
def WithStrictMode : MapOption := fun c => { c with strictMode := true }

/-- `WithMaxDepth` of options.go: non-positive requests are ignored. -/
def WithMaxDepth (depth : Int) : MapOption :=
  fun c => if 0 < depth then { c with maxDepth := depth.toNat } else c

/-- A Go `any` argument: the nil interface, or an interface holding a value. -/
inductive GoAny where
  | gNil
  | gVal (v : Value)
deriving DecidableEq, Repr

/-- `typeOf` of part_005: the dynamic type's printed name, or `<nil>`. -/
def typeOf : GoAny → String
  | .gNil => "<nil>"
  | .gVal v => (tyOfV v).render

/-- The per-field loop of `runMapping` (part_005): strict-mode failure on an
unmatched destination field, the skip-zero-source policy, and a fresh
`assignValue` budget of `cfg.maxDepth` per field. -/
def rootLoop (o : IterOracle) (cfg : Config) (srcVal : Value) (srcMeta : StructMeta)
    (srcType dstType : Ty) :
    List (String × FieldMetaM) → Value → Except MappingError Value
  | [], dstElem => .ok dstElem
  | (dstName, dstFieldMeta) :: rest, dstElem =>
    let srcFieldMeta? :=
      match List.lookup dstName srcMeta.FieldsByName with
      | some m => some m
      | none => List.lookup dstName srcMeta.FieldsByTag
    match srcFieldMeta? with
    | none =>
      if cfg.strictMode then
        .error { SrcType := srcType.render, DstType := dstType.render, FieldPath := dstName,
                 Reason := "no matching source field found" }
      else rootLoop o cfg srcVal srcMeta srcType dstType rest dstElem
    | some srcFieldMeta =>
      let srcField := (structVals srcVal).get srcFieldMeta.Index
      let dstField := (structVals dstElem).get dstFieldMeta.Index
      if cfg.ignoreZeroSource && isZeroV srcField then
        rootLoop o cfg srcVal srcMeta srcType dstType rest dstElem
      else
        match (mkEngine o cfg.maxDepth).assignValue dstField srcField srcType dstType dstName srcFieldMeta.ConvertTo cfg.tagName with
        | .error e => .error e
        | .ok v => rootLoop o cfg srcVal srcMeta srcType dstType rest (setStructField dstElem dstFieldMeta.Index v)

/-- `runMapping` of part_005, parameterised by the iteration oracle.  The
root preconditions are checked in source order; the per-field loop then
resolves each destination field by name then alias, applies the strict and
skip-zero policies, and calls `assignValue` with the full depth budget.  On
success the new contents of the destination struct are returned (the model
of mutating through the destination pointer). -/
def runMappingO (o : IterOracle) (dst src : GoAny) (cfg : Config) : Except MappingError Value :=
  if dst == .gNil || src == .gNil then
    .error { SrcType := typeOf src, DstType := typeOf dst, FieldPath := "", Reason := "nil src or dst" }
  else
    match dst with
    | .gNil => .error { SrcType := typeOf src, DstType := typeOf dst, FieldPath := "", Reason := "nil src or dst" }
    | .gVal dstVal =>
      match dstVal with
      | .vPtrMk _ dstElem0 =>
        if !(isStructTy (tyOfV dstElem0)) then
          .error { SrcType := typeOf src, DstType := typeOf dst, FieldPath := "", Reason := "dst must point to a struct" }
        else
          match src with
          | .gNil => .error { SrcType := typeOf src, DstType := typeOf dst, FieldPath := "", Reason := "nil src or dst" }
          | .gVal srcVal0 =>
            match srcVal0 with
            | .vPtrNil _ =>
              .error { SrcType := typeOf src, DstType := typeOf dst, FieldPath := "", Reason := "src is a nil pointer" }
            | srcOuter =>
              let srcVal := match srcOuter with
                | .vPtrMk _ inner => inner
                | v => v
              if !(isStructTy (tyOfV srcVal)) then
                .error { SrcType := typeOf src, DstType := typeOf dst, FieldPath := "",
                         Reason := "src must be a struct or pointer to struct" }
              else
                let srcType := tyOfV srcVal
                let dstType := tyOfV dstElem0
                match getStructMeta srcType cfg.tagName with
                | .error e => .error e
                | .ok srcMeta =>
                  match getStructMeta dstType cfg.tagName with
                  | .error e => .error e
                  | .ok dstMeta =>
                    rootLoop o cfg srcVal srcMeta srcType dstType (o.fieldOrd dstMeta.FieldsByName) dstElem0
      | _ =>
        .error { SrcType := typeOf src, DstType := typeOf dst, FieldPath := "",
                 Reason := "dst must be a non-nil pointer to struct" }

/-- `MapWithOptions` of part_001, parameterised by the iteration oracle:
options applied in order over the default configuration. -/
def MapWithOptionsO (o : IterOracle) (dst src : GoAny) (opts : List MapOption) : Except MappingError Value :=
  runMappingO o dst src (opts.foldl (fun c f => f c) defaultConfig)

/-- `Map` of part_001, parameterised by the iteration oracle. -/
def MapO (o : IterOracle) (dst src : GoAny) : Except MappingError Value :=
  MapWithOptionsO o dst src []

/-- `runMapping` under the declaration-order oracle. -/
def runMapping (dst src : GoAny) (cfg : Config) : Except MappingError Value :=
  runMappingO idOracle dst src cfg

/-- `MapWithOptions` under the declaration-order oracle. -/
def MapWithOptions (dst src : GoAny) (opts : List MapOption) : Except MappingError Value :=
  MapWithOptionsO idOracle dst src opts

/-- `Map` under the declaration-order oracle. -/
def Map (dst src : GoAny) : Except MappingError Value :=
  MapO idOracle dst src

/-! ### Further definitions used by the claim theorems -/

/-- The `map[string]int` scenario source type: `struct { Data map[string]int }`. -/
def C8SrcTy : Ty := .tStruct "mapper.Src4" (.fcons "Data" true [] (.tMap .tString (.tInt .iPlain)) .fnil)

/-- The scenario destination type: `struct { Data map[int]int }`. -/
def C8DstTy : Ty := .tStruct "mapper.Dst4" (.fcons "Data" true [] (.tMap (.tInt .iPlain) (.tInt .iPlain)) .fnil)

/-- A scenario source value with one `Data` entry. -/
def C8SrcVal : Value :=
  .vStruct "mapper.Src4" (.fcons "Data" true [] (.tMap .tString (.tInt .iPlain)) .fnil)
    (.vcons (.vMapMk .tString (.tInt .iPlain) (.econs (.vString "a") (.vInt .iPlain 1) .enil)) .vnil)

/-- The conversion-scenario source type: `struct { Age string mapconv:int }`. -/
def C6SrcTy : Ty := .tStruct "mapper.Src2" (.fcons "Age" true [("mapconv", "int")] .tString .fnil)

/-- The conversion-scenario destination type: `struct { Age int }`. -/
def C6DstTy : Ty := .tStruct "mapper.Dst2" (.fcons "Age" true [] (.tInt .iPlain) .fnil)

/-- A conversion-scenario source value holding the given `Age` text. -/
def C6SrcVal (s : String) : Value :=
  .vStruct "mapper.Src2" (.fcons "Age" true [("mapconv", "int")] .tString .fnil)
    (.vcons (.vString s) .vnil)

/-- Nested-record strict-mode scenario, inner source type: `struct { A string }`. -/
def C3SrcInTy : Ty := .tStruct "mapper.C3SrcIn" (.fcons "A" true [] .tString .fnil)

/-- Inner destination type with an extra field: `struct { A string; B int }`. -/
def C3DstInTy : Ty :=
  .tStruct "mapper.C3DstIn" (.fcons "A" true [] .tString (.fcons "B" true [] (.tInt .iPlain) .fnil))

/-- Root source type: `struct { Inner C3SrcIn }`. -/
def C3SrcTy : Ty := .tStruct "mapper.C3Src" (.fcons "Inner" true [] C3SrcInTy .fnil)

/-- Root destination type: `struct { Inner C3DstIn }`. -/
def C3DstTy : Ty := .tStruct "mapper.C3Dst" (.fcons "Inner" true [] C3DstInTy .fnil)

/-- The scenario source value (`Inner.A = "x"`; no `B`). -/
def C3SrcVal : Value :=
  .vStruct "mapper.C3Src" (.fcons "Inner" true [] C3SrcInTy .fnil)
    (.vcons (.vStruct "mapper.C3SrcIn" (.fcons "A" true [] .tString .fnil)
      (.vcons (.vString "x") .vnil)) .vnil)

/-- The prior destination value (`Inner.A = "old"`, `Inner.B = 7`). -/
def C3DstPrior : Value :=
  .vStruct "mapper.C3Dst" (.fcons "Inner" true [] C3DstInTy .fnil)
    (.vcons (.vStruct "mapper.C3DstIn"
      (.fcons "A" true [] .tString (.fcons "B" true [] (.tInt .iPlain) .fnil))
      (.vcons (.vString "old") (.vcons (.vInt .iPlain 7) .vnil))) .vnil)

/-- The mapped destination: `Inner.A` overwritten, `Inner.B` preserved. -/
def C3DstAfter : Value :=
  .vStruct "mapper.C3Dst" (.fcons "Inner" true [] C3DstInTy .fnil)
    (.vcons (.vStruct "mapper.C3DstIn"
      (.fcons "A" true [] .tString (.fcons "B" true [] (.tInt .iPlain) .fnil))
      (.vcons (.vString "x") (.vcons (.vInt .iPlain 7) .vnil))) .vnil)

/-- C5 nested-failure scenario, slice route: element types. -/
def C5SrcItemTy : Ty := .tStruct "mapper.C5SrcItem" (.fcons "Name" true [] .tString .fnil)

/-- Destination element type whose `Name` is an `int` (the planted failure). -/
def C5DstItemTy : Ty := .tStruct "mapper.C5DstItem" (.fcons "Name" true [] (.tInt .iPlain) .fnil)

/-- Root source: `struct { Items []C5SrcItem }`. -/
def C5SrcTy : Ty := .tStruct "mapper.C5Src" (.fcons "Items" true [] (.tSlice C5SrcItemTy) .fnil)

/-- Root destination: `struct { Items []C5DstItem }`. -/
def C5DstTy : Ty := .tStruct "mapper.C5Dst" (.fcons "Items" true [] (.tSlice C5DstItemTy) .fnil)

/-- The slice-route source value with one element. -/
def C5SrcVal : Value :=
  .vStruct "mapper.C5Src" (.fcons "Items" true [] (.tSlice C5SrcItemTy) .fnil)
    (.vcons (.vSliceMk C5SrcItemTy (.vcons
      (.vStruct "mapper.C5SrcItem" (.fcons "Name" true [] .tString .fnil)
        (.vcons (.vString "n") .vnil)) .vnil)) .vnil)

/-- C5 map route: source entry type `struct { Host string }`. -/
def C5SrcHTy : Ty := .tStruct "mapper.C5SrcH" (.fcons "Host" true [] .tString .fnil)

/-- Map-route destination entry type whose `Host` is an `int`. -/
def C5DstHTy : Ty := .tStruct "mapper.C5DstH" (.fcons "Host" true [] (.tInt .iPlain) .fnil)

/-- Root source: `struct { Config map[string]C5SrcH }`. -/
def C5MSrcTy : Ty := .tStruct "mapper.C5MSrc" (.fcons "Config" true [] (.tMap .tString C5SrcHTy) .fnil)

/-- Root destination: `struct { Config map[string]C5DstH }`. -/
def C5MDstTy : Ty := .tStruct "mapper.C5MDst" (.fcons "Config" true [] (.tMap .tString C5DstHTy) .fnil)

/-- The map-route source value with one `database` entry. -/
def C5MSrcVal : Value :=
  .vStruct "mapper.C5MSrc" (.fcons "Config" true [] (.tMap .tString C5SrcHTy) .fnil)
    (.vcons (.vMapMk .tString C5SrcHTy (.econs (.vString "database")
      (.vStruct "mapper.C5SrcH" (.fcons "Host" true [] .tString .fnil)
        (.vcons (.vString "h") .vnil)) .enil)) .vnil)

/-! #### Depth-bound chain families (claim C1)

One family per composite shape: `…ChainTy k` / `…ChainVal k` is a value
nested through `k` layers of that shape, bottoming out at an `int`.  The
root wrapper `chainRoot…` is a record with a single field `C` holding the
chain, so the chain depth counts composite levels below the mapping root. -/

/-- `k` pointer layers over `int` (`int`, `*int`, `**int`, …). -/
def ptrChainTy : Nat → Ty
  | 0 => .tInt .iPlain
  | k + 1 => .tPtr (ptrChainTy k)

/-- The fully non-nil pointer chain over the value 7. -/
def ptrChainVal : Nat → Value
  | 0 => .vInt .iPlain 7
  | k + 1 => .vPtrMk (ptrChainTy k) (ptrChainVal k)

/-- `k+1` record layers: `L0` holds an `int`; `L(n+1)` holds an `L n`. -/
def structChainTy : Nat → Ty
  | 0 => .tStruct "mapper.L0" (.fcons "V" true [] (.tInt .iPlain) .fnil)
  | k + 1 => .tStruct ("mapper.L" ++ toString (k + 1)) (.fcons "Inner" true [] (structChainTy k) .fnil)

/-- The record chain value. -/
def structChainVal : Nat → Value
  | 0 => .vStruct "mapper.L0" (.fcons "V" true [] (.tInt .iPlain) .fnil)
      (.vcons (.vInt .iPlain 7) .vnil)
  | k + 1 => .vStruct ("mapper.L" ++ toString (k + 1)) (.fcons "Inner" true [] (structChainTy k) .fnil)
      (.vcons (structChainVal k) .vnil)

/-- `k` slice layers over `int` (`int`, `[]int`, `[][]int`, …). -/
def sliceChainTy : Nat → Ty
  | 0 => .tInt .iPlain
  | k + 1 => .tSlice (sliceChainTy k)

/-- The singleton-slice chain value. -/
def sliceChainVal : Nat → Value
  | 0 => .vInt .iPlain 7
  | k + 1 => .vSliceMk (sliceChainTy k) (.vcons (sliceChainVal k) .vnil)

/-- `k` map layers over `int` (`int`, `map[string]int`, …). -/
def mapChainTy : Nat → Ty
  | 0 => .tInt .iPlain
  | k + 1 => .tMap .tString (mapChainTy k)

/-- The single-entry map chain value (all keys `"k"`). -/
def mapChainVal : Nat → Value
  | 0 => .vInt .iPlain 7
  | k + 1 => .vMapMk .tString (mapChainTy k) (.econs (.vString "k") (mapChainVal k) .enil)

/-- The root record wrapping a chain in its single field `C`. -/
def chainRootTy (t : Ty) : Ty := .tStruct "mapper.ChainRoot" (.fcons "C" true [] t .fnil)

/-- The root record value wrapping a chain value. -/
def chainRootVal (t : Ty) (v : Value) : Value :=
  .vStruct "mapper.ChainRoot" (.fcons "C" true [] t .fnil) (.vcons v .vnil)

/-- The field path at which a record chain exhausts a budget of `n`:
`fp.Inner.Inner…` with `n` appended segments. -/
def innerPath : String → Nat → String
  | fp, 0 => fp
  | fp, n + 1 => innerPath (buildPath fp "Inner") n

/-- The field path at which a slice chain exhausts a budget of `n`
(`prependIndexPath` composition: `fp[0].[0]…`). -/
def slicePathF : String → Nat → String
  | fp, 0 => fp
  | fp, n + 1 =>
    if slicePathF "" n != "" then buildSlicePath fp 0 ++ "." ++ slicePathF "" n
    else buildSlicePath fp 0

/-- The field path at which a map chain exhausts a budget of `n`
(`prependMapKeyPath` composition: `fp[k].[k]…`). -/
def mapPathF : String → Nat → String
  | fp, 0 => fp
  | fp, n + 1 =>
    if mapPathF "" n != "" then buildMapPath fp (.vString "k") ++ "." ++ mapPathF "" n
    else buildMapPath fp (.vString "k")

/-! #### The general path of record recursion (claim C9) -/

/-- The general (destination-driven, per-field) path of `assignStruct` of
part_006, with the same-type no-composite fast path removed: metadata for
both types, then the per-field resolution loop.  Used to compare the
source's whole-record-copy fast path against per-field resolution. -/
def assignStructGeneral (o : IterOracle) (dst src : Value) (srcStructType dstStructType : Ty)
    (fieldPath tagName : String) : Nat → Except MappingError Value
  | 0 => .error (depthErr srcStructType dstStructType fieldPath)
  | d + 1 =>
    let srcType := tyOfV src
    let dstType := tyOfV dst
    match getStructMeta srcType tagName with
    | .error err =>
      .error { SrcType := srcStructType.render, DstType := dstStructType.render, FieldPath := fieldPath,
               Reason := "failed to get source struct metadata: " ++ renderErr err }
    | .ok srcMeta =>
      match getStructMeta dstType tagName with
      | .error err =>
        .error { SrcType := srcStructType.render, DstType := dstStructType.render, FieldPath := fieldPath,
                 Reason := "failed to get destination struct metadata: " ++ renderErr err }
      | .ok dstMeta =>
        structLoop ((mkEngine o (d + 1)).assignNestedValue) src srcMeta srcStructType dstStructType
          fieldPath tagName (o.fieldOrd dstMeta.FieldsByName) dst

/-- All fields exported, no conversion directive, no composite type (the
amended fast-path equivalence precondition). -/
def plainFields : FieldList → Bool
  | .fnil => true
  | .fcons _ exported tags ty tl =>
    exported && (tagGet tags "mapconv" == "") && !(isCompositeTy ty) && plainFields tl

/-- The declared field names, in order. -/
def fieldNames : FieldList → List String
  | .fnil => []
  | .fcons n _ _ _ tl => n :: fieldNames tl

/-- The declared type at a field position. -/
def fieldTyAt : FieldList → Nat → Option Ty
  | .fnil, _ => none
  | .fcons _ _ _ ty _, 0 => some ty
  | .fcons _ _ _ _ tl, i + 1 => fieldTyAt tl i

/-- The values positionally match the declared field types. -/
def valsMatch : FieldList → VList → Bool
  | .fnil, .vnil => true
  | .fcons _ _ _ ty tl, .vcons v vs => (tyOfV v == ty) && valsMatch tl vs
  | _, _ => false

/-- The by-name metadata table `buildStructMeta` produces for an
all-exported field list: one entry per field, in declaration order. -/
def enumPlain (tagName : String) : FieldList → Nat → List (String × FieldMetaM)
  | .fnil, _ => []
  | .fcons n _ tags ty tl, i =>
    (n, { Name := n, Index := i, Typ := ty,
          Tag := if tagName != "" then tagGet tags tagName else "",
          ConvertTo := tagGet tags "mapconv" }) :: enumPlain tagName tl (i + 1)

/-- C9 counterexample record type: `struct { A int; b int }` with an
unexported second field. -/
def C9UTy : Ty :=
  .tStruct "mapper.U" (.fcons "A" true [] (.tInt .iPlain) (.fcons "b" false [] (.tInt .iPlain) .fnil))

/-- C9 source value `{A: 1, b: 2}`. -/
def C9USrc : Value :=
  .vStruct "mapper.U" (.fcons "A" true [] (.tInt .iPlain) (.fcons "b" false [] (.tInt .iPlain) .fnil))
    (.vcons (.vInt .iPlain 1) (.vcons (.vInt .iPlain 2) .vnil))

/-- C9 prior destination value `{A: 9, b: 9}`. -/
def C9UDst : Value :=
  .vStruct "mapper.U" (.fcons "A" true [] (.tInt .iPlain) (.fcons "b" false [] (.tInt .iPlain) .fnil))
    (.vcons (.vInt .iPlain 9) (.vcons (.vInt .iPlain 9) .vnil))

/-- What the general path produces on the C9 counterexample: the exported
field copied, the unexported field left at its prior value. -/
def C9UGeneral : Value :=
  .vStruct "mapper.U" (.fcons "A" true [] (.tInt .iPlain) (.fcons "b" false [] (.tInt .iPlain) .fnil))
    (.vcons (.vInt .iPlain 1) (.vcons (.vInt .iPlain 9) .vnil))

/-- The number of declared fields. -/
def numFields : FieldList → Nat
  | .fnil => 0
  | .fcons _ _ _ _ tl => 1 + numFields tl

/-- Index-wise overwriting of a destination field list by the corresponding
source fields, one metadata entry at a time. -/
def overwriteAt (svals : VList) : VList → List (String × FieldMetaM) → VList
  | dvals, [] => dvals
  | dvals, (_, m) :: rest => overwriteAt svals (dvals.set m.Index (svals.get m.Index)) rest

/-- Reversal of a map-entry list, accumulator style. -/
def EList.revAppend : EList → EList → EList
  | .enil, acc => acc
  | .econs k v tl, acc => EList.revAppend tl (.econs k v acc)

/-- An iteration oracle that enumerates map entries in reversed order. -/
def revOracle : IterOracle := { fieldOrd := id, entryOrd := fun l => l.revAppend .enil }

/-- C10 source type: `struct { M map[int16]string }`. -/
def C10SrcTy : Ty := .tStruct "mapper.C10Src" (.fcons "M" true [] (.tMap (.tInt .i16) .tString) .fnil)

/-- C10 destination type: `struct { M map[int8]string }`. -/
def C10DstTy : Ty := .tStruct "mapper.C10Dst" (.fcons "M" true [] (.tMap (.tInt .i8) .tString) .fnil)

/-- C10 source value `{M: {1: "a", 257: "b"}}`: two `int16` keys that
collide after conversion to `int8`. -/
def C10SrcVal : Value :=
  .vStruct "mapper.C10Src" (.fcons "M" true [] (.tMap (.tInt .i16) .tString) .fnil)
    (.vcons (.vMapMk (.tInt .i16) .tString
      (.econs (.vInt .i16 1) (.vString "a") (.econs (.vInt .i16 257) (.vString "b") .enil))) .vnil)

/-- The final destination under declaration-order entry iteration: the
second entry wins the collided key. -/
def C10OutFwd : Value :=
  .vStruct "mapper.C10Dst" (.fcons "M" true [] (.tMap (.tInt .i8) .tString) .fnil)
    (.vcons (.vMapMk (.tInt .i8) .tString (.econs (.vInt .i8 1) (.vString "b") .enil)) .vnil)

/-- The final destination under reversed entry iteration: the first entry
wins the collided key. -/
def C10OutRev : Value :=
  .vStruct "mapper.C10Dst" (.fcons "M" true [] (.tMap (.tInt .i8) .tString) .fnil)
    (.vcons (.vMapMk (.tInt .i8) .tString (.econs (.vInt .i8 1) (.vString "a") .enil)) .vnil)

/-! ## Theorems -/

/-- The zero value of a type has that type. -/
theorem tyOfV_zeroValue : ∀ t : Ty, tyOfV (zeroValue t) = t := by
  intro t; cases t <;> rfl

/-- The pointer chain value has the pointer chain type. -/
theorem tyOfV_ptrChainVal : ∀ k, tyOfV (ptrChainVal k) = ptrChainTy k := by
  intro k; cases k <;> rfl

/-- The record chain value has the record chain type. -/
theorem tyOfV_structChainVal : ∀ k, tyOfV (structChainVal k) = structChainTy k := by
  intro k; cases k <;> rfl

/-- The slice chain value has the slice chain type. -/
theorem tyOfV_sliceChainVal : ∀ k, tyOfV (sliceChainVal k) = sliceChainTy k := by
  intro k; cases k <;> rfl

/-- The map chain value has the map chain type. -/
theorem tyOfV_mapChainVal : ∀ k, tyOfV (mapChainVal k) = mapChainTy k := by
  intro k; cases k <;> rfl

/-- Record chain types are struct types. -/
theorem isStructTy_structChainTy : ∀ k, isStructTy (structChainTy k) = true := by
  intro k; cases k <;> rfl

/-- Record chain types are composite. -/
theorem isCompositeTy_structChainTy : ∀ k, isCompositeTy (structChainTy k) = true := by
  intro k; cases k <;> rfl

/-- Positional update then access at a different position is unchanged. -/
theorem VList.get_set_ne : ∀ (l : VList) (j : Nat) (v : Value) (i : Nat), i ≠ j →
    (l.set j v).get i = l.get i
  | .vnil, _, _, _, _ => rfl
  | .vcons _ _, 0, _, 0, h => absurd rfl h
  | .vcons _ _, 0, _, _ + 1, _ => rfl
  | .vcons _ _, _ + 1, _, 0, _ => rfl
  | .vcons _ tl, j + 1, v, i + 1, h => VList.get_set_ne tl j v i (fun hh => h (by omega))

/-- `setStructField` updates exactly the struct's value list. -/
theorem structVals_set (dst : Value) (j : Nat) (v : Value) :
    structVals (setStructField dst j v) = (structVals dst).set j v := by
  cases dst <;> rfl

/-- Claim C4: for every sequence-typed and map-typed field assignment, a nil
source collection yields a nil destination collection, and a non-nil empty
source collection yields a non-nil destination collection of length 0.
Formalised: the zero value of a slice/map type is the nil collection;
`assignSlice`/`assignMap` on a nil source (at a live budget) succeed with
the destination type's zero (nil) value; and on a non-nil empty source any
successful result is the non-nil empty collection of the destination's
element types. -/
theorem claim_C4 :
    (∀ es : Ty, zeroValue (.tSlice es) = .vSliceNil es)
  ∧ (∀ kt vt : Ty, zeroValue (.tMap kt vt) = .vMapNil kt vt)
  ∧ (∀ (dst : Value) (es sst dstT : Ty) (fp tn : String) (d : Nat),
      assignSlice dst (.vSliceNil es) sst dstT fp tn (d + 1) = .ok (zeroValue (tyOfV dst)))
  ∧ (∀ (dst : Value) (kt vt sst dstT : Ty) (fp tn : String) (d : Nat),
      assignMap dst (.vMapNil kt vt) sst dstT fp tn (d + 1) = .ok (zeroValue (tyOfV dst)))
  ∧ (∀ (dst : Value) (es de sst dstT : Ty) (fp tn : String) (d : Nat) (v : Value),
      tyOfV dst = .tSlice de →
      assignSlice dst (.vSliceMk es .vnil) sst dstT fp tn (d + 1) = .ok v →
      v = .vSliceMk de .vnil)
  ∧ (∀ (dst : Value) (kt vt dk dv sst dstT : Ty) (fp tn : String) (d : Nat) (v : Value),
      tyOfV dst = .tMap dk dv →
      assignMap dst (.vMapMk kt vt .enil) sst dstT fp tn (d + 1) = .ok v →
      v = .vMapMk dk dv .enil) := by
  refine ⟨fun _ => rfl, fun _ _ => rfl, ?_, ?_, ?_, ?_⟩
  · intro dst es sst dstT fp tn d
    simp [assignSlice, mkEngine]
  · intro dst kt vt sst dstT fp tn d
    simp [assignMap, mkEngine]
  · intro dst es de sst dstT fp tn d v hty h
    cases dst
    case vSliceNil e =>
      simp only [tyOfV, Ty.tSlice.injEq] at hty
      subst hty
      simp only [assignSlice, mkEngine, tyOfV] at h
      split at h
      · cases h; rfl
      · split at h
        · simp at h
        · simp only [sliceLoop] at h
          cases h; rfl
    case vSliceMk e l =>
      simp only [tyOfV, Ty.tSlice.injEq] at hty
      subst hty
      simp only [assignSlice, mkEngine, tyOfV] at h
      split at h
      · cases h; rfl
      · split at h
        · simp at h
        · simp only [sliceLoop] at h
          cases h; rfl
    all_goals simp only [tyOfV] at hty <;> exact absurd hty (by simp)
  · intro dst kt vt dk dv sst dstT fp tn d v hty h
    cases dst
    case vMapNil k0 v0 =>
      simp only [tyOfV, Ty.tMap.injEq] at hty
      obtain ⟨h1, h2⟩ := hty
      subst h1; subst h2
      simp only [assignMap, mkEngine, tyOfV, idOracle, id] at h
      split at h
      · simp at h
      · split at h
        · simp at h
        · simp only [mapLoop] at h
          cases h; rfl
    case vMapMk k0 v0 en =>
      simp only [tyOfV, Ty.tMap.injEq] at hty
      obtain ⟨h1, h2⟩ := hty
      subst h1; subst h2
      simp only [assignMap, mkEngine, tyOfV, idOracle, id] at h
      split at h
      · simp at h
      · split at h
        · simp at h
        · simp only [mapLoop] at h
          cases h; rfl
    all_goals simp only [tyOfV] at hty <;> exact absurd hty (by simp)

/-- A successful `ParseInt` result is within the target bit range. -/
theorem parseIntGo_ok_range (s : String) (bits : Nat) (v : Int)
    (h : parseIntGo s bits = .ok v) :
    -(2 ^ (bits - 1) : Int) ≤ v ∧ v ≤ 2 ^ (bits - 1) - 1 := by
  simp only [parseIntGo] at h
  split at h
  · exact absurd h (by simp)
  · split at h
    · cases h; assumption
    · exact absurd h (by simp)

/-- A successful `ParseUint` result is within the target bit range. -/
theorem parseUintGo_ok_range (s : String) (bits : Nat) (v : Nat)
    (h : parseUintGo s bits = .ok v) : v < 2 ^ bits := by
  simp only [parseUintGo] at h
  split at h
  · exact absurd h (by simp)
  · split at h
    · cases h; assumption
    · exact absurd h (by simp)

/-- Two's-complement truncation is the identity within range. -/
theorem toSigned_id (w : IW) (v : Int)
    (h1 : -(2 ^ (iBits w - 1) : Int) ≤ v) (h2 : v ≤ 2 ^ (iBits w - 1) - 1) :
    toSigned w v = v := by
  cases w <;> simp only [toSigned, iBits] at * <;> omega

/-- Unsigned truncation is the identity within range. -/
theorem toUnsigned_id (w : UW) (v : Nat) (h : v < 2 ^ uBits w) :
    toUnsigned w (Int.ofNat v) = v := by
  cases w <;> simp only [toUnsigned, uBits, Int.ofNat_eq_coe] at * <;> omega

/-- Claim C6: textual coercion succeeds exactly when the text parses as the
directive's target kind.  Formalised for the modelled (non-floating-point)
directives: `convertString` with target `int` is exactly `ParseInt` at 64
bits (success embeds the parsed value, failure embeds the text, the kind
name and the parser complaint); through the engine, an `Age string
mapconv:"int"` source field mapped into an `int` destination field yields
the parsed integer on success and the coercion error at the field's path on
failure; the empty string fails for every modelled directive; out-of-range
integer text fails with the range complaint; and the spec's `"42"`/`"abc"`
scenario behaves as stated. -/
theorem claim_C6 :
    (∀ (s : String) (sst dstT : Ty) (fp : String),
      convertString s "int" sst dstT fp =
        match parseIntGo s 64 with
        | .error e => .error (conversionError s "int" (goParseErr "ParseInt" s e) sst dstT fp)
        | .ok v => .ok (.vInt .iPlain v))
  ∧ (∀ (s : String) (n0 : Int) (sst dstT : Ty) (fp tn : String) (d : Nat),
      (∀ v, parseIntGo s 64 = .ok v →
        assignValue (.vInt .iPlain n0) (.vString s) sst dstT fp "int" tn (d + 1) = .ok (.vInt .iPlain v))
      ∧ (∀ e, parseIntGo s 64 = .error e →
        assignValue (.vInt .iPlain n0) (.vString s) sst dstT fp "int" tn (d + 1) =
          .error (conversionError s "int" (goParseErr "ParseInt" s e) sst dstT fp)))
  ∧ (∀ (sst dstT : Ty) (fp t : String),
      t ∈ (["int", "int8", "int16", "int32", "int64"] : List String) →
      convertString "" t sst dstT fp =
        .error (conversionError "" t (goParseErr "ParseInt" "" .invalidSyntax) sst dstT fp))
  ∧ (∀ (sst dstT : Ty) (fp t : String),
      t ∈ (["uint", "uint8", "uint16", "uint32", "uint64"] : List String) →
      convertString "" t sst dstT fp =
        .error (conversionError "" t (goParseErr "ParseUint" "" .invalidSyntax) sst dstT fp))
  ∧ (∀ (sst dstT : Ty) (fp : String),
      convertString "" "bool" sst dstT fp =
        .error (conversionError "" "bool" (goParseErr "ParseBool" "" .invalidSyntax) sst dstT fp))
  ∧ (convertString "128" "int8" C6SrcTy C6DstTy "Age" =
      .error { SrcType := "mapper.Src2", DstType := "mapper.Dst2", FieldPath := "Age",
               Reason := "cannot convert \"128\" to int8: strconv.ParseInt: parsing \"128\": value out of range" })
  ∧ (Map (.gVal (.vPtrMk C6DstTy (zeroValue C6DstTy))) (.gVal (C6SrcVal "42")) =
      .ok (.vStruct "mapper.Dst2" (.fcons "Age" true [] (.tInt .iPlain) .fnil)
        (.vcons (.vInt .iPlain 42) .vnil)))
  ∧ (Map (.gVal (.vPtrMk C6DstTy (zeroValue C6DstTy))) (.gVal (C6SrcVal "abc")) =
      .error { SrcType := "mapper.Src2", DstType := "mapper.Dst2", FieldPath := "Age",
               Reason := "cannot convert \"abc\" to int: strconv.ParseInt: parsing \"abc\": invalid syntax" }) := by
  refine ⟨?_, ?_, ?_, ?_, fun _ _ _ => rfl, rfl, rfl, rfl⟩
  · intro s sst dstT fp
    cases h : parseIntGo s 64 <;> simp [convertString, h]
  · intro s n0 sst dstT fp tn d
    constructor
    · intro v hv
      have hr := parseIntGo_ok_range s 64 v hv
      have : toSigned .iPlain v = v := toSigned_id .iPlain v (by exact_mod_cast hr.1) (by exact_mod_cast hr.2)
      simp [assignValue, mkEngine, tyOfV, isStringTy, stringOf, convertString, hv, convertVal, this]
    · intro e he
      simp [assignValue, mkEngine, tyOfV, isStringTy, stringOf, convertString, he]
  · intro sst dstT fp t ht
    fin_cases ht <;> rfl
  · intro sst dstT fp t ht
    fin_cases ht <;> rfl

/-- Witness for C6: the engine conjunct applied at the text `42` (parsing
to 42), and the empty-string conjunct applied at directive `int8`. -/
theorem claim_C6_witness :
    (assignValue (.vInt .iPlain 0) (.vString "42") C6SrcTy C6DstTy "Age" "int" "map" 64 =
      .ok (.vInt .iPlain 42))
  ∧ (convertString "" "int8" C6SrcTy C6DstTy "Age" =
      .error (conversionError "" "int8" (goParseErr "ParseInt" "" .invalidSyntax) C6SrcTy C6DstTy "Age")) :=
  ⟨(claim_C6.2.1 "42" 0 C6SrcTy C6DstTy "Age" "map" 63).1 42 rfl,
   claim_C6.2.2.1 C6SrcTy C6DstTy "Age" "int8" (by simp)⟩

/-- Claim C8: a map-to-map assignment whose key types are neither assignable
nor convertible fails upfront with the exact key-incompatibility reason at
the map field's path, for every entry list (so before any entry is copied,
and without producing any new destination value), and the `map[string]int`
to `map[int]int` scenario fails at path `Data` with that reason. -/
theorem claim_C8 :
    (∀ (dst : Value) (kt vt dk dv sst dstT : Ty) (fp tn : String) (d : Nat) (entries : EList),
      tyOfV dst = .tMap dk dv →
      assignableTo kt dk = false →
      convertibleTo kt dk = false →
      assignMap dst (.vMapMk kt vt entries) sst dstT fp tn (d + 1) =
        .error { SrcType := sst.render, DstType := dstT.render, FieldPath := fp,
                 Reason := "map key types are incompatible: " ++ kt.render ++ " -> " ++ dk.render })
  ∧ Map (.gVal (.vPtrMk C8DstTy (zeroValue C8DstTy))) (.gVal C8SrcVal) =
      .error { SrcType := "mapper.Src4", DstType := "mapper.Dst4", FieldPath := "Data",
               Reason := "map key types are incompatible: string -> int" } := by
  constructor
  · intro dst kt vt dk dv sst dstT fp tn d entries hty ha hc
    cases dst
    case vMapNil k0 v0 =>
      simp only [tyOfV, Ty.tMap.injEq] at hty
      obtain ⟨h1, h2⟩ := hty
      subst h1; subst h2
      simp [assignMap, mkEngine, tyOfV, ha, hc]
    case vMapMk k0 v0 en =>
      simp only [tyOfV, Ty.tMap.injEq] at hty
      obtain ⟨h1, h2⟩ := hty
      subst h1; subst h2
      simp [assignMap, mkEngine, tyOfV, ha, hc]
    all_goals simp only [tyOfV] at hty <;> exact absurd hty (by simp)
  · rfl

/-- Witness for C8: the key-incompatibility conjunct applied at the
scenario's `string` to `int` key pair. -/
theorem claim_C8_witness :
    assignMap (.vMapNil (.tInt .iPlain) (.tInt .iPlain))
      (.vMapMk .tString (.tInt .iPlain) (.econs (.vString "a") (.vInt .iPlain 1) .enil))
      C8SrcTy C8DstTy "Data" "map" 64 =
      .error { SrcType := "mapper.Src4", DstType := "mapper.Dst4", FieldPath := "Data",
               Reason := "map key types are incompatible: string -> int" } :=
  claim_C8.1 (.vMapNil (.tInt .iPlain) (.tInt .iPlain)) .tString (.tInt .iPlain)
    (.tInt .iPlain) (.tInt .iPlain) C8SrcTy C8DstTy "Data" "map" 63
    (.econs (.vString "a") (.vInt .iPlain 1) .enil) rfl rfl rfl

/-- Counterexample for C3: with strict mode enabled and a nested destination
field (`Inner.B`) that has no source counterpart by name or alias, the
mapping nevertheless succeeds — the nested record loop of `assignStruct`
has no strict-mode check (the configuration is not even passed down), so
strict mode only applies at the root level.  The claim says this call must
fail with reason `no matching source field found` at `Inner.B`. -/
theorem claim_C3_cex :
    MapWithOptions (.gVal (.vPtrMk C3DstTy C3DstPrior)) (.gVal C3SrcVal) [WithStrictMode] =
      .ok C3DstAfter :=
  rfl

/-- Claim C3, amended: strict-mode resolution failure applies at the root
record level only.  At the root, an unmatched destination field fails with
`no matching source field found` at that field's name under strict mode,
and is silently skipped otherwise; a skipped (or never-matched) field keeps
its prior value in any successful mapping.  At nested levels the per-field
loop always skips unmatched destination fields, in both modes.  The
concrete nested scenario succeeds under strict mode with the unmatched
nested field left at its prior value. -/
theorem claim_C3 :
    (∀ (o : IterOracle) (cfg : Config) (srcVal : Value) (srcMeta : StructMeta)
        (st dt : Ty) (rest : List (String × FieldMetaM)) (dstElem : Value)
        (name : String) (meta : FieldMetaM),
      cfg.strictMode = true →
      List.lookup name srcMeta.FieldsByName = none →
      List.lookup name srcMeta.FieldsByTag = none →
      rootLoop o cfg srcVal srcMeta st dt ((name, meta) :: rest) dstElem =
        .error { SrcType := st.render, DstType := dt.render, FieldPath := name,
                 Reason := "no matching source field found" })
  ∧ (∀ (o : IterOracle) (cfg : Config) (srcVal : Value) (srcMeta : StructMeta)
        (st dt : Ty) (rest : List (String × FieldMetaM)) (dstElem : Value)
        (name : String) (meta : FieldMetaM),
      cfg.strictMode = false →
      List.lookup name srcMeta.FieldsByName = none →
      List.lookup name srcMeta.FieldsByTag = none →
      rootLoop o cfg srcVal srcMeta st dt ((name, meta) :: rest) dstElem =
        rootLoop o cfg srcVal srcMeta st dt rest dstElem)
  ∧ (∀ (o : IterOracle) (cfg : Config) (srcVal : Value) (srcMeta : StructMeta)
        (st dt : Ty) (l : List (String × FieldMetaM)) (dstElem final : Value) (i : Nat),
      rootLoop o cfg srcVal srcMeta st dt l dstElem = .ok final →
      (∀ p ∈ l, p.2.Index ≠ i) →
      (structVals final).get i = (structVals dstElem).get i)
  ∧ (∀ (anv : Value → Value → Ty → Ty → String → String → String → String → Except MappingError Value)
        (src : Value) (srcMeta : StructMeta) (sst dstT : Ty) (fp tn : String)
        (name : String) (meta : FieldMetaM) (rest : List (String × FieldMetaM)) (dst : Value),
      List.lookup name srcMeta.FieldsByName = none →
      List.lookup name srcMeta.FieldsByTag = none →
      structLoop anv src srcMeta sst dstT fp tn ((name, meta) :: rest) dst =
        structLoop anv src srcMeta sst dstT fp tn rest dst)
  ∧ (MapWithOptions (.gVal (.vPtrMk C3DstTy C3DstPrior)) (.gVal C3SrcVal) [WithStrictMode] =
      .ok C3DstAfter) := by
  refine ⟨?_, ?_, ?_, ?_, rfl⟩
  · intro o cfg srcVal srcMeta st dt rest dstElem name meta hs h1 h2
    simp [rootLoop, h1, h2, hs]
  · intro o cfg srcVal srcMeta st dt rest dstElem name meta hs h1 h2
    simp [rootLoop, h1, h2, hs]
  · intro o cfg srcVal srcMeta st dt l dstElem final i h hidx
    induction l generalizing dstElem with
    | nil =>
      simp only [rootLoop] at h
      cases h; rfl
    | cons p rest ih =>
      obtain ⟨name, meta⟩ := p
      simp only [rootLoop] at h
      split at h
      · split at h
        · exact absurd h (by simp)
        · exact ih dstElem h (fun q hq => hidx q (List.mem_cons_of_mem _ hq))
      · split at h
        · exact ih dstElem h (fun q hq => hidx q (List.mem_cons_of_mem _ hq))
        · split at h
          · exact absurd h (by simp)
          · rename_i srcFieldMeta _ _ v _
            have step := ih (setStructField dstElem meta.Index v) h
              (fun q hq => hidx q (List.mem_cons_of_mem _ hq))
            rw [step, structVals_set, VList.get_set_ne]
            exact fun hh => hidx (name, meta) (List.mem_cons_self _ _) (by simpa using hh.symm)
  · intro anv src srcMeta sst dstT fp tn name meta rest dst h1 h2
    simp [structLoop, h1, h2]

/-- Witness for C3: the root-level conjuncts applied at a concrete
single-entry loop with no matching source field, in both modes, and the
preservation conjunct applied to the empty loop. -/
theorem claim_C3_witness :
    (rootLoop idOracle { defaultConfig with strictMode := true } C3SrcVal
        (buildStructMeta C3SrcTy "map") C3SrcTy C3DstTy
        [("Nope", { Name := "Nope", Index := 0, Typ := .tString, Tag := "", ConvertTo := "" })]
        C3DstPrior =
      .error { SrcType := "mapper.C3Src", DstType := "mapper.C3Dst", FieldPath := "Nope",
               Reason := "no matching source field found" })
  ∧ (rootLoop idOracle defaultConfig C3SrcVal
        (buildStructMeta C3SrcTy "map") C3SrcTy C3DstTy
        [("Nope", { Name := "Nope", Index := 0, Typ := .tString, Tag := "", ConvertTo := "" })]
        C3DstPrior =
      rootLoop idOracle defaultConfig C3SrcVal (buildStructMeta C3SrcTy "map") C3SrcTy C3DstTy [] C3DstPrior)
  ∧ ((structVals C3DstPrior).get 0 = (structVals C3DstPrior).get 0) :=
  ⟨claim_C3.1 idOracle { defaultConfig with strictMode := true } C3SrcVal
      (buildStructMeta C3SrcTy "map") C3SrcTy C3DstTy []
      C3DstPrior "Nope" { Name := "Nope", Index := 0, Typ := .tString, Tag := "", ConvertTo := "" }
      rfl rfl rfl,
   claim_C3.2.1 idOracle defaultConfig C3SrcVal
      (buildStructMeta C3SrcTy "map") C3SrcTy C3DstTy []
      C3DstPrior "Nope" { Name := "Nope", Index := 0, Typ := .tString, Tag := "", ConvertTo := "" }
      rfl rfl rfl,
   claim_C3.2.2.1 idOracle defaultConfig C3SrcVal (buildStructMeta C3SrcTy "map")
      C3SrcTy C3DstTy [] C3DstPrior C3DstPrior 0 rfl (by simp)⟩

/-- Claim C5: path composition.  The intermediate prepend helpers only
prepend the bracketed segment (dot-joined onto a non-empty nested path) and
never alter the source/destination type names or the reason; and two
end-to-end nested failures reconstruct the exact route from the root:
`Items[0].Name` through a sequence of records, and `Config[database].Host`
through a map of records, with the root call's type names and the leaf
reason intact. -/
theorem claim_C5 :
    (∀ (e : MappingError) (base : String) (i : Nat),
      (prependIndexPath e base i).SrcType = e.SrcType
      ∧ (prependIndexPath e base i).DstType = e.DstType
      ∧ (prependIndexPath e base i).Reason = e.Reason
      ∧ (prependIndexPath e base i).FieldPath =
          (if e.FieldPath = "" then buildSlicePath base i
           else buildSlicePath base i ++ "." ++ e.FieldPath))
  ∧ (∀ (e : MappingError) (base : String) (k : Value),
      (prependMapKeyPath e base k).SrcType = e.SrcType
      ∧ (prependMapKeyPath e base k).DstType = e.DstType
      ∧ (prependMapKeyPath e base k).Reason = e.Reason
      ∧ (prependMapKeyPath e base k).FieldPath =
          (if e.FieldPath = "" then buildMapPath base k
           else buildMapPath base k ++ "." ++ e.FieldPath))
  ∧ (Map (.gVal (.vPtrMk C5DstTy (zeroValue C5DstTy))) (.gVal C5SrcVal) =
      .error { SrcType := "mapper.C5Src", DstType := "mapper.C5Dst", FieldPath := "Items[0].Name",
               Reason := "incompatible field types: string -> int" })
  ∧ (Map (.gVal (.vPtrMk C5MDstTy (zeroValue C5MDstTy))) (.gVal C5MSrcVal) =
      .error { SrcType := "mapper.C5MSrc", DstType := "mapper.C5MDst", FieldPath := "Config[database].Host",
               Reason := "incompatible field types: string -> int" }) := by
  refine ⟨?_, ?_, rfl, rfl⟩
  · intro e base i
    by_cases h : e.FieldPath = "" <;> simp [prependIndexPath, h]
  · intro e base k
    by_cases h : e.FieldPath = "" <;> simp [prependMapKeyPath, h]

/-- Counterexample for C7: the six root precondition violations do not all
produce distinct reason strings.  A nil destination interface and a nil
source interface share the reason `nil src or dst`; a non-pointer
destination and a nil destination pointer share the reason `dst must be a
non-nil pointer to struct`. -/
theorem claim_C7_cex :
    (runMapping .gNil (.gVal (C6SrcVal "1")) defaultConfig =
      .error { SrcType := "mapper.Src2", DstType := "<nil>", FieldPath := "", Reason := "nil src or dst" })
  ∧ (runMapping (.gVal (.vPtrMk C6DstTy (zeroValue C6DstTy))) .gNil defaultConfig =
      .error { SrcType := "<nil>", DstType := "*mapper.Dst2", FieldPath := "", Reason := "nil src or dst" })
  ∧ (runMapping (.gVal (.vInt .iPlain 5)) (.gVal (C6SrcVal "1")) defaultConfig =
      .error { SrcType := "mapper.Src2", DstType := "int", FieldPath := "",
               Reason := "dst must be a non-nil pointer to struct" })
  ∧ (runMapping (.gVal (.vPtrNil C6DstTy)) (.gVal (C6SrcVal "1")) defaultConfig =
      .error { SrcType := "mapper.Src2", DstType := "*mapper.Dst2", FieldPath := "",
               Reason := "dst must be a non-nil pointer to struct" }) :=
  ⟨rfl, rfl, rfl, rfl⟩

/-- Claim C7, amended: the root precondition violations produce five
distinct reason strings, but not six: a nil source interface and a nil
destination interface share `nil src or dst`, and a non-pointer destination
shares `dst must be a non-nil pointer to struct` with a nil destination
pointer; a destination pointer to a non-struct, a nil source pointer, and a
source that is neither a struct nor a pointer to one each get their own
reason, and the five strings are pairwise distinct. -/
theorem claim_C7 :
    (∀ (src : GoAny) (cfg : Config),
      runMapping .gNil src cfg =
        .error { SrcType := typeOf src, DstType := "<nil>", FieldPath := "", Reason := "nil src or dst" })
  ∧ (∀ (dst : GoAny) (cfg : Config),
      runMapping dst .gNil cfg =
        .error { SrcType := "<nil>", DstType := typeOf dst, FieldPath := "", Reason := "nil src or dst" })
  ∧ (∀ (v sv : Value) (cfg : Config), isPtrTy (tyOfV v) = false →
      runMapping (.gVal v) (.gVal sv) cfg =
        .error { SrcType := (tyOfV sv).render, DstType := (tyOfV v).render, FieldPath := "",
                 Reason := "dst must be a non-nil pointer to struct" })
  ∧ (∀ (t : Ty) (sv : Value) (cfg : Config),
      runMapping (.gVal (.vPtrNil t)) (.gVal sv) cfg =
        .error { SrcType := (tyOfV sv).render, DstType := "*" ++ t.render, FieldPath := "",
                 Reason := "dst must be a non-nil pointer to struct" })
  ∧ (∀ (t : Ty) (inner sv : Value) (cfg : Config), isStructTy (tyOfV inner) = false →
      runMapping (.gVal (.vPtrMk t inner)) (.gVal sv) cfg =
        .error { SrcType := (tyOfV sv).render, DstType := "*" ++ t.render, FieldPath := "",
                 Reason := "dst must point to a struct" })
  ∧ (∀ (t : Ty) (inner : Value) (st : Ty) (cfg : Config), isStructTy (tyOfV inner) = true →
      runMapping (.gVal (.vPtrMk t inner)) (.gVal (.vPtrNil st)) cfg =
        .error { SrcType := "*" ++ st.render, DstType := "*" ++ t.render, FieldPath := "",
                 Reason := "src is a nil pointer" })
  ∧ (∀ (t : Ty) (inner sv : Value) (cfg : Config), isStructTy (tyOfV inner) = true →
      isStructTy (tyOfV sv) = false → isPtrTy (tyOfV sv) = false →
      runMapping (.gVal (.vPtrMk t inner)) (.gVal sv) cfg =
        .error { SrcType := (tyOfV sv).render, DstType := "*" ++ t.render, FieldPath := "",
                 Reason := "src must be a struct or pointer to struct" })
  ∧ (["nil src or dst", "dst must be a non-nil pointer to struct", "dst must point to a struct",
      "src is a nil pointer", "src must be a struct or pointer to struct"] : List String).Nodup := by
  refine ⟨?_, ?_, ?_, ?_, ?_, ?_, ?_, by decide⟩
  · intro src cfg
    cases src <;> rfl
  · intro dst cfg
    cases dst <;> rfl
  · intro v sv cfg h
    cases v <;> simp_all [runMapping, runMappingO, typeOf, tyOfV, isPtrTy]
  · intro t sv cfg
    simp [runMapping, runMappingO, typeOf, tyOfV, Ty.render]
  · intro t inner sv cfg h
    cases inner <;> simp [tyOfV, isStructTy] at h <;>
      simp [runMapping, runMappingO, typeOf, tyOfV, isStructTy, Ty.render]
  · intro t inner st cfg h
    cases inner <;> simp [tyOfV, isStructTy] at h <;>
      simp [runMapping, runMappingO, typeOf, tyOfV, isStructTy, Ty.render]
  · intro t inner sv cfg h1 h2 h3
    cases inner <;> simp [tyOfV, isStructTy] at h1
    cases sv <;> simp_all [runMapping, runMappingO, typeOf, tyOfV, isPtrTy, isStructTy, Ty.render]

/-- Witness for C7: the amended conjuncts applied at concrete violations
(a non-pointer integer destination, and a non-struct string source). -/
theorem claim_C7_witness :
    (runMapping (.gVal (.vBool true)) (.gVal (.vString "s")) defaultConfig =
      .error { SrcType := "string", DstType := "bool", FieldPath := "",
               Reason := "dst must be a non-nil pointer to struct" })
  ∧ (runMapping (.gVal (.vPtrMk C6DstTy (zeroValue C6DstTy))) (.gVal (.vString "s")) defaultConfig =
      .error { SrcType := "string", DstType := "*mapper.Dst2", FieldPath := "",
               Reason := "src must be a struct or pointer to struct" }) :=
  ⟨claim_C7.2.2.1 (.vBool true) (.vString "s") defaultConfig rfl,
   claim_C7.2.2.2.2.2.2.1 C6DstTy (zeroValue C6DstTy) (.vString "s") defaultConfig rfl rfl rfl⟩

/-- Witness for C4: the empty-collection conjuncts applied at a concrete
empty `[]int` slice and a concrete empty `map[string]int`. -/
theorem claim_C4_witness :
    (Value.vSliceMk (.tInt .iPlain) .vnil = .vSliceMk (.tInt .iPlain) .vnil)
  ∧ (Value.vMapMk .tString (.tInt .iPlain) .enil = .vMapMk .tString (.tInt .iPlain) .enil) :=
  ⟨claim_C4.2.2.2.2.1 (.vSliceNil (.tInt .iPlain)) (.tInt .iPlain) (.tInt .iPlain)
      (.tStruct "mapper.S" .fnil) (.tStruct "mapper.D" .fnil) "F" "map" 3
      (.vSliceMk (.tInt .iPlain) .vnil) rfl rfl,
   claim_C4.2.2.2.2.2 (.vMapNil .tString (.tInt .iPlain)) .tString (.tInt .iPlain)
      .tString (.tInt .iPlain) (.tStruct "mapper.S" .fnil) (.tStruct "mapper.D" .fnil) "F" "map" 3
      (.vMapMk .tString (.tInt .iPlain) .enil) rfl rfl⟩

theorem ptrChain_AV : ∀ (k d : Nat) (st dt : Ty) (fp tn : String),
    (mkEngine idOracle d).assignValue (.vPtrNil (ptrChainTy k)) (ptrChainVal (k + 1)) st dt fp "" tn =
      if k + 1 ≤ d then .ok (ptrChainVal (k + 1))
      else .error (depthErr st dt fp) := by
  intro k
  induction k with
  | zero =>
    intro d st dt fp tn
    cases d with
    | zero => simp [mkEngine, ptrChainTy, ptrChainVal]
    | succ e =>
      simp [mkEngine, ptrChainTy, ptrChainVal, zeroValue, tyOfV, isStringTy, isStructTy,
        isSliceTy, isMapTy, isPtrTy, isCompositeTy, assignableTo]
  | succ j ih =>
    intro d st dt fp tn
    cases d with
    | zero => simp [mkEngine, Nat.not_succ_le_zero]
    | succ e =>
      simp [mkEngine, ptrChainTy, ptrChainVal, zeroValue, tyOfV, isStringTy, isStructTy,
        isSliceTy, isMapTy, isPtrTy, isCompositeTy, assignableTo]
      rw [show Value.vPtrMk (ptrChainTy j) (ptrChainVal j) = ptrChainVal (j + 1) from rfl,
        ih e st dt fp tn]
      by_cases hc : j + 1 ≤ e
      · simp [hc, Nat.succ_le_succ hc, ptrChainVal, ptrChainTy]
      · have hc2 : ¬(j + 1 + 1 ≤ e + 1) := by omega
        simp [hc, hc2, ptrChainVal, ptrChainTy]

theorem tyOfV_vStruct (n : String) (d : FieldList) (vs : VList) :
    tyOfV (.vStruct n d vs) = .tStruct n d := rfl

theorem tyOfV_vSliceNil (e : Ty) : tyOfV (.vSliceNil e) = .tSlice e := rfl

theorem tyOfV_vSliceMk (e : Ty) (l : VList) : tyOfV (.vSliceMk e l) = .tSlice e := rfl

theorem tyOfV_vMapNil (k v : Ty) : tyOfV (.vMapNil k v) = .tMap k v := rfl

theorem tyOfV_vMapMk (k v : Ty) (en : EList) : tyOfV (.vMapMk k v en) = .tMap k v := rfl

theorem tyOfV_vPtrNil (e : Ty) : tyOfV (.vPtrNil e) = .tPtr e := rfl

theorem tyOfV_vPtrMk (e : Ty) (i : Value) : tyOfV (.vPtrMk e i) = .tPtr e := rfl

theorem tyOfV_vString (s : String) : tyOfV (.vString s) = .tString := rfl

theorem tyOfV_vInt (w : IW) (n : Int) : tyOfV (.vInt w n) = .tInt w := rfl

theorem isStructTy_tStruct (n : String) (f : FieldList) : isStructTy (.tStruct n f) = true := rfl

theorem isSliceTy_structChainTy : ∀ k, isSliceTy (structChainTy k) = false := by
  intro k; cases k <;> rfl

theorem isMapTy_structChainTy : ∀ k, isMapTy (structChainTy k) = false := by
  intro k; cases k <;> rfl

theorem isPtrTy_structChainTy : ∀ k, isPtrTy (structChainTy k) = false := by
  intro k; cases k <;> rfl

theorem idOracle_fieldOrd (l : List (String × FieldMetaM)) : idOracle.fieldOrd l = l := rfl

theorem idOracle_entryOrd (l : EList) : idOracle.entryOrd l = l := rfl

theorem structChain_AS : ∀ (k d : Nat) (sst dstT : Ty) (fp tn : String),
    (mkEngine idOracle d).assignStruct (zeroValue (structChainTy k)) (structChainVal k) sst dstT fp tn =
      if k + 1 ≤ d then .ok (structChainVal k)
      else .error { SrcType := sst.render, DstType := dstT.render,
                    FieldPath := innerPath fp d, Reason := depthReason } := by
  intro k
  induction k with
  | zero =>
    intro d sst dstT fp tn
    cases d with
    | zero => simp [mkEngine, innerPath, depthErr]
    | succ e =>
      simp [mkEngine, structChainTy, structChainVal, zeroValue, zeroFields, tyOfV,
        getStructMeta, isStructTy, buildStructMeta, buildFieldsAux, isCompositeTy,
        isSliceTy, isMapTy, isPtrTy, tagGet, insertAssoc]
  | succ j ih =>
    intro d sst dstT fp tn
    cases d with
    | zero => simp [mkEngine, Nat.not_succ_le_zero, innerPath, depthErr]
    | succ e =>
      simp only [mkEngine, structChainTy, structChainVal, zeroValue, zeroFields,
        tyOfV_vStruct, tyOfV_structChainVal, tyOfV_zeroValue,
        getStructMeta, isStructTy_tStruct, buildStructMeta, buildFieldsAux,
        isCompositeTy_structChainTy, isStructTy_structChainTy,
        isSliceTy_structChainTy, isMapTy_structChainTy, isPtrTy_structChainTy,
        tagGet, insertAssoc, List.lookup, idOracle_fieldOrd, idOracle_entryOrd, structLoop,
        structVals, VList.get, setStructField, VList.set,
        beq_self_eq_true, bne_self_eq_false, Bool.false_and, Bool.and_false,
        Bool.true_and, Bool.and_true, Bool.not_true, Bool.not_false, Bool.and_self,
        if_true, if_false, ite_self, reduceCtorEq, reduceIte, List.head?]
      rw [ih e sst dstT (buildPath fp "Inner") tn]
      by_cases hc : j + 1 ≤ e
      · simp [hc, Nat.succ_le_succ hc, structChainVal, structChainTy, setStructField, VList.set]
      · have hc2 : ¬(j + 1 + 1 ≤ e + 1) := by omega
        simp [hc, hc2, innerPath]

theorem sliceChain_ASl : ∀ (k d : Nat) (sst dstT : Ty) (fp tn : String),
    (mkEngine idOracle d).assignSlice (.vSliceNil (sliceChainTy k)) (sliceChainVal (k + 1)) sst dstT fp tn =
      if k + 1 ≤ d then .ok (sliceChainVal (k + 1))
      else .error { SrcType := sst.render, DstType := dstT.render,
                    FieldPath := slicePathF fp d, Reason := depthReason } := by
  intro k
  induction k with
  | zero =>
    intro d sst dstT fp tn
    cases d with
    | zero => simp [mkEngine, slicePathF, depthErr]
    | succ e =>
      simp [mkEngine, sliceChainTy, sliceChainVal, zeroValue, tyOfV, isStructTy,
        isSliceTy, isMapTy, isPtrTy, isCompositeTy, assignableTo, convertibleTo]
  | succ j ih =>
    intro d sst dstT fp tn
    cases d with
    | zero => simp [mkEngine, Nat.not_succ_le_zero, slicePathF, depthErr]
    | succ e =>
      simp only [mkEngine, sliceChainTy, sliceChainVal, zeroValue,
        tyOfV_vSliceNil, tyOfV_vSliceMk,
        isStructTy, isSliceTy, isMapTy, isPtrTy, isCompositeTy, assignableTo, convertibleTo,
        sliceLoop, idOracle_fieldOrd, idOracle_entryOrd,
        beq_self_eq_true, bne_self_eq_false, Bool.false_and, Bool.and_false,
        Bool.true_and, Bool.and_true, Bool.not_true, Bool.not_false, Bool.and_self,
        Bool.false_or, Bool.or_false, Bool.not_eq_true,
        if_true, if_false, ite_self]
      rw [show Value.vSliceMk (sliceChainTy j) (VList.vcons (sliceChainVal j) VList.vnil)
            = sliceChainVal (j + 1) from rfl,
        ih e sst dstT "" tn]
      by_cases hc : j + 1 ≤ e
      · simp [hc, Nat.succ_le_succ hc, sliceChainVal, sliceChainTy, sliceLoop]
      · have hc2 : ¬(j + 1 + 1 ≤ e + 1) := by omega
        simp [hc, hc2, prependIndexPath, slicePathF]
        split <;> rfl

theorem mapChain_AM : ∀ (k d : Nat) (sst dstT : Ty) (fp tn : String),
    (mkEngine idOracle d).assignMap (.vMapNil .tString (mapChainTy k)) (mapChainVal (k + 1)) sst dstT fp tn =
      if k + 1 ≤ d then .ok (mapChainVal (k + 1))
      else .error { SrcType := sst.render, DstType := dstT.render,
                    FieldPath := mapPathF fp d, Reason := depthReason } := by
  intro k
  induction k with
  | zero =>
    intro d sst dstT fp tn
    cases d with
    | zero => simp [mkEngine, mapPathF, depthErr]
    | succ e =>
      simp [mkEngine, mapChainTy, mapChainVal, zeroValue, tyOfV, isStructTy,
        isSliceTy, isMapTy, isPtrTy, isCompositeTy, assignableTo, convertibleTo,
        mapLoop, EList.setKey, idOracle_entryOrd]
  | succ j ih =>
    intro d sst dstT fp tn
    cases d with
    | zero => simp [mkEngine, Nat.not_succ_le_zero, mapPathF, depthErr]
    | succ e =>
      simp only [mkEngine, mapChainTy, mapChainVal, zeroValue,
        tyOfV_vMapNil, tyOfV_vMapMk,
        isStructTy, isSliceTy, isMapTy, isPtrTy, isCompositeTy, assignableTo, convertibleTo,
        mapLoop, EList.setKey, idOracle_fieldOrd, idOracle_entryOrd,
        beq_self_eq_true, bne_self_eq_false, Bool.false_and, Bool.and_false,
        Bool.true_and, Bool.and_true, Bool.not_true, Bool.not_false, Bool.and_self,
        Bool.false_or, Bool.or_false, Bool.or_true, Bool.true_or, Bool.not_eq_true,
        if_true, if_false, ite_self]
      rw [show Value.vMapMk Ty.tString (mapChainTy j) (EList.econs (.vString "k") (mapChainVal j) EList.enil)
            = mapChainVal (j + 1) from rfl,
        ih e sst dstT "" tn]
      by_cases hc : j + 1 ≤ e
      · simp [hc, Nat.succ_le_succ hc, mapChainVal, mapChainTy, mapLoop, EList.setKey]
      · have hc2 : ¬(j + 1 + 1 ≤ e + 1) := by omega
        simp [hc, hc2, prependMapKeyPath, mapPathF, buildMapPath, formatMapKey]
        split <;> rfl

theorem gVal_beq_gNil (v : Value) : (GoAny.gVal v == GoAny.gNil) = false := rfl

theorem chainRoot_run (t : Ty) (v : Value) (D : Nat) (hcomp : isCompositeTy t = true) :
    runMapping (.gVal (.vPtrMk (chainRootTy t) (zeroValue (chainRootTy t))))
      (.gVal (chainRootVal t v)) ⟨"map", false, false, D⟩ =
      match (mkEngine idOracle D).assignValue (zeroValue t) v (chainRootTy t) (chainRootTy t) "C" "" "map" with
      | .error e => .error e
      | .ok w => .ok (chainRootVal t w) := by
  simp only [runMapping, runMappingO, gVal_beq_gNil, Bool.or_self, Bool.false_eq_true,
    if_false, chainRootTy, chainRootVal, zeroValue, zeroFields,
    tyOfV_vStruct, tyOfV_vPtrMk, isStructTy_tStruct, Bool.not_true, typeOf,
    getStructMeta, buildStructMeta, buildFieldsAux, hcomp, tagGet, insertAssoc,
    List.lookup, rootLoop, structVals, VList.get, setStructField, VList.set,
    idOracle_fieldOrd, Bool.false_and, Bool.and_false, Bool.true_and, Bool.and_true,
    Bool.not_false, if_true, ite_self]
  rfl

theorem ptrChain_root (k D : Nat) :
    runMapping (.gVal (.vPtrMk (chainRootTy (ptrChainTy (k + 1))) (zeroValue (chainRootTy (ptrChainTy (k + 1))))))
      (.gVal (chainRootVal (ptrChainTy (k + 1)) (ptrChainVal (k + 1)))) ⟨"map", false, false, D⟩ =
      if k + 1 ≤ D then .ok (chainRootVal (ptrChainTy (k + 1)) (ptrChainVal (k + 1)))
      else .error { SrcType := "mapper.ChainRoot", DstType := "mapper.ChainRoot",
                    FieldPath := "C", Reason := depthReason } := by
  rw [chainRoot_run _ _ _ (show isCompositeTy (ptrChainTy (k + 1)) = true from rfl)]
  rw [show zeroValue (ptrChainTy (k + 1)) = .vPtrNil (ptrChainTy k) from rfl]
  rw [ptrChain_AV k D _ _ "C" "map"]
  by_cases hc : k + 1 ≤ D <;> simp [hc, depthErr, chainRootTy, Ty.render]

theorem structChain_root (k e : Nat) :
    runMapping (.gVal (.vPtrMk (chainRootTy (structChainTy k)) (zeroValue (chainRootTy (structChainTy k)))))
      (.gVal (chainRootVal (structChainTy k) (structChainVal k))) ⟨"map", false, false, e + 1⟩ =
      if k + 1 ≤ e then .ok (chainRootVal (structChainTy k) (structChainVal k))
      else .error { SrcType := "mapper.ChainRoot", DstType := "mapper.ChainRoot",
                    FieldPath := innerPath "C" e, Reason := depthReason } := by
  rw [chainRoot_run _ _ _ (isCompositeTy_structChainTy k)]
  simp only [mkEngine, tyOfV_zeroValue, tyOfV_structChainVal,
    isStructTy_structChainTy, isSliceTy_structChainTy, isMapTy_structChainTy,
    isPtrTy_structChainTy, bne_self_eq_false, Bool.false_and, Bool.and_self,
    Bool.false_eq_true, if_false, if_true]
  rw [structChain_AS k e]
  by_cases hc : k + 1 ≤ e <;> simp [hc, chainRootTy, Ty.render]

theorem sliceChain_root (k e : Nat) :
    runMapping (.gVal (.vPtrMk (chainRootTy (sliceChainTy (k + 1))) (zeroValue (chainRootTy (sliceChainTy (k + 1))))))
      (.gVal (chainRootVal (sliceChainTy (k + 1)) (sliceChainVal (k + 1)))) ⟨"map", false, false, e + 1⟩ =
      if k + 1 ≤ e then .ok (chainRootVal (sliceChainTy (k + 1)) (sliceChainVal (k + 1)))
      else .error { SrcType := "mapper.ChainRoot", DstType := "mapper.ChainRoot",
                    FieldPath := slicePathF "C" e, Reason := depthReason } := by
  rw [chainRoot_run _ _ _ (show isCompositeTy (sliceChainTy (k + 1)) = true from rfl)]
  rw [show zeroValue (sliceChainTy (k + 1)) = .vSliceNil (sliceChainTy k) from rfl]
  simp only [mkEngine, tyOfV_vSliceNil, tyOfV_sliceChainVal, sliceChainTy,
    isStructTy, isSliceTy, isMapTy, isPtrTy, bne_self_eq_false,
    Bool.false_and, Bool.and_self, Bool.and_true, Bool.true_and,
    Bool.false_eq_true, if_false, if_true]
  rw [sliceChain_ASl k e]
  by_cases hc : k + 1 ≤ e <;> simp [hc, chainRootTy, Ty.render]

theorem mapChain_root (k e : Nat) :
    runMapping (.gVal (.vPtrMk (chainRootTy (mapChainTy (k + 1))) (zeroValue (chainRootTy (mapChainTy (k + 1))))))
      (.gVal (chainRootVal (mapChainTy (k + 1)) (mapChainVal (k + 1)))) ⟨"map", false, false, e + 1⟩ =
      if k + 1 ≤ e then .ok (chainRootVal (mapChainTy (k + 1)) (mapChainVal (k + 1)))
      else .error { SrcType := "mapper.ChainRoot", DstType := "mapper.ChainRoot",
                    FieldPath := mapPathF "C" e, Reason := depthReason } := by
  rw [chainRoot_run _ _ _ (show isCompositeTy (mapChainTy (k + 1)) = true from rfl)]
  rw [show zeroValue (mapChainTy (k + 1)) = .vMapNil .tString (mapChainTy k) from rfl]
  simp only [mkEngine, tyOfV_vMapNil, tyOfV_mapChainVal, mapChainTy,
    isStructTy, isSliceTy, isMapTy, isPtrTy, bne_self_eq_false,
    Bool.false_and, Bool.and_self, Bool.and_true, Bool.true_and,
    Bool.false_eq_true, if_false, if_true]
  rw [mapChain_AM k e]
  by_cases hc : k + 1 ≤ e <;> simp [hc, chainRootTy, Ty.render]


/-- Counterexample for C1: with configured max-depth 1, a value nested to
exactly one composite level below the root — a single record field — fails
with the depth-exhaustion error instead of mapping successfully (the record
dispatch consumes one budget unit before the nested entry check), and the
error's reason string is the source's longer text, not the spec's quoted
"maximum nesting depth exceeded". -/
theorem claim_C1_cex :
    (MapWithOptions
        (.gVal (.vPtrMk (chainRootTy (structChainTy 0)) (zeroValue (chainRootTy (structChainTy 0)))))
        (.gVal (chainRootVal (structChainTy 0) (structChainVal 0))) [WithMaxDepth 1] =
      .error { SrcType := "mapper.ChainRoot", DstType := "mapper.ChainRoot", FieldPath := "C",
               Reason := "maximum nesting depth exceeded (possible circular reference)" })
  ∧ "maximum nesting depth exceeded (possible circular reference)" ≠ "maximum nesting depth exceeded" :=
  ⟨rfl, by decide⟩

/-- Claim C1, amended: for every configured max-depth `D`, the depth bound
is enforced as a returned `MappingError` (never a panic — the engine is a
total function) with reason `maximum nesting depth exceeded (possible
circular reference)`, but the admissible nesting differs by one between
shapes.  Counting composite levels below the root record: an optional
(pointer) chain of `n` levels succeeds iff `n ≤ D`; record, sequence, and
map chains of `n` levels succeed iff `n ≤ D - 1`, because their dispatch
consumes one budget unit before the nested level's entry check.  The last
conjuncts tie `WithMaxDepth` to the configuration and show the source's
reason string is not the spec's shorter quote. -/
theorem claim_C1 :
    (∀ k D : Nat,
      runMapping (.gVal (.vPtrMk (chainRootTy (ptrChainTy (k + 1))) (zeroValue (chainRootTy (ptrChainTy (k + 1))))))
        (.gVal (chainRootVal (ptrChainTy (k + 1)) (ptrChainVal (k + 1)))) ⟨"map", false, false, D⟩ =
        if k + 1 ≤ D then .ok (chainRootVal (ptrChainTy (k + 1)) (ptrChainVal (k + 1)))
        else .error { SrcType := "mapper.ChainRoot", DstType := "mapper.ChainRoot",
                      FieldPath := "C", Reason := depthReason })
  ∧ (∀ k e : Nat,
      runMapping (.gVal (.vPtrMk (chainRootTy (structChainTy k)) (zeroValue (chainRootTy (structChainTy k)))))
        (.gVal (chainRootVal (structChainTy k) (structChainVal k))) ⟨"map", false, false, e + 1⟩ =
        if k + 1 ≤ e then .ok (chainRootVal (structChainTy k) (structChainVal k))
        else .error { SrcType := "mapper.ChainRoot", DstType := "mapper.ChainRoot",
                      FieldPath := innerPath "C" e, Reason := depthReason })
  ∧ (∀ k e : Nat,
      runMapping (.gVal (.vPtrMk (chainRootTy (sliceChainTy (k + 1))) (zeroValue (chainRootTy (sliceChainTy (k + 1))))))
        (.gVal (chainRootVal (sliceChainTy (k + 1)) (sliceChainVal (k + 1)))) ⟨"map", false, false, e + 1⟩ =
        if k + 1 ≤ e then .ok (chainRootVal (sliceChainTy (k + 1)) (sliceChainVal (k + 1)))
        else .error { SrcType := "mapper.ChainRoot", DstType := "mapper.ChainRoot",
                      FieldPath := slicePathF "C" e, Reason := depthReason })
  ∧ (∀ k e : Nat,
      runMapping (.gVal (.vPtrMk (chainRootTy (mapChainTy (k + 1))) (zeroValue (chainRootTy (mapChainTy (k + 1))))))
        (.gVal (chainRootVal (mapChainTy (k + 1)) (mapChainVal (k + 1)))) ⟨"map", false, false, e + 1⟩ =
        if k + 1 ≤ e then .ok (chainRootVal (mapChainTy (k + 1)) (mapChainVal (k + 1)))
        else .error { SrcType := "mapper.ChainRoot", DstType := "mapper.ChainRoot",
                      FieldPath := mapPathF "C" e, Reason := depthReason })
  ∧ (∀ D : Nat, 1 ≤ D → ∀ dst src,
      MapWithOptions dst src [WithMaxDepth (Int.ofNat D)] = runMapping dst src ⟨"map", false, false, D⟩)
  ∧ depthReason ≠ "maximum nesting depth exceeded" := by
  refine ⟨ptrChain_root, structChain_root, sliceChain_root, mapChain_root, ?_, by decide⟩
  intro D hD dst src
  have h1 : (0 : Int) < Int.ofNat D := by
    rw [Int.ofNat_eq_coe]
    omega
  simp [MapWithOptions, MapWithOptionsO, runMapping, WithMaxDepth, defaultConfig, h1,
    DefaultMaxDepth, Nat.lt_of_lt_of_le Nat.zero_lt_one hD]

/-- Witness for C1: the options-to-configuration conjunct applied at
max-depth 2 on the one-level pointer chain (which then succeeds). -/
theorem claim_C1_witness :
    MapWithOptions
        (.gVal (.vPtrMk (chainRootTy (ptrChainTy 1)) (zeroValue (chainRootTy (ptrChainTy 1)))))
        (.gVal (chainRootVal (ptrChainTy 1) (ptrChainVal 1))) [WithMaxDepth (Int.ofNat 2)] =
      runMapping (.gVal (.vPtrMk (chainRootTy (ptrChainTy 1)) (zeroValue (chainRootTy (ptrChainTy 1)))))
        (.gVal (chainRootVal (ptrChainTy 1) (ptrChainVal 1))) ⟨"map", false, false, 2⟩ :=
  claim_C1.2.2.2.2.1 2 (by decide)
    (.gVal (.vPtrMk (chainRootTy (ptrChainTy 1)) (zeroValue (chainRootTy (ptrChainTy 1)))))
    (.gVal (chainRootVal (ptrChainTy 1) (ptrChainVal 1)))



/-! ### The fast path of record recursion (claim C9) -/

theorem VList.len_set : ∀ (l : VList) (i : Nat) (v : Value), (l.set i v).len = l.len
  | .vnil, _, _ => rfl
  | .vcons _ _, 0, _ => rfl
  | .vcons _ tl, i + 1, v => by simp [VList.set, VList.len, VList.len_set tl i v]

theorem VList.get_set_self : ∀ (l : VList) (i : Nat) (v : Value), i < l.len →
    (l.set i v).get i = v
  | .vnil, i, _, h => by simp [VList.len] at h
  | .vcons _ _, 0, _, _ => rfl
  | .vcons _ tl, i + 1, v, h => by
    simp only [VList.len] at h
    exact VList.get_set_self tl i v (by omega)

theorem VList.ext : ∀ (l1 l2 : VList), l1.len = l2.len →
    (∀ j, j < l1.len → l1.get j = l2.get j) → l1 = l2
  | .vnil, .vnil, _, _ => rfl
  | .vnil, .vcons _ _, h, _ => by simp only [VList.len] at h; omega
  | .vcons _ _, .vnil, h, _ => by simp only [VList.len] at h; omega
  | .vcons a t1, .vcons b t2, h, hp => by
    have hh : a = b := hp 0 (by simp only [VList.len]; omega)
    have ht : t1 = t2 := by
      apply VList.ext t1 t2 (by simp only [VList.len] at h; omega)
      intro j hj
      exact hp (j + 1) (by simp only [VList.len]; omega)
    rw [hh, ht]

theorem lookup_append_none {β : Type} (k : String) (l1 l2 : List (String × β))
    (h : List.lookup k l1 = none) : List.lookup k (l1 ++ l2) = List.lookup k l2 := by
  induction l1 with
  | nil => rfl
  | cons p tl ih =>
    obtain ⟨k0, v0⟩ := p
    by_cases hk : k0 = k
    · subst hk
      simp [List.lookup] at h
    · have hne : (k == k0) = false := beq_eq_false_iff_ne.mpr (fun hh => hk hh.symm)
      simp only [List.lookup, hne] at h
      simp only [List.cons_append, List.lookup, hne]
      exact ih h

theorem insertAssoc_append {β : Type} (l : List (String × β)) (k : String) (v : β)
    (h : List.lookup k l = none) : insertAssoc l k v = l ++ [(k, v)] := by
  induction l with
  | nil => rfl
  | cons p tl ih =>
    obtain ⟨k0, v0⟩ := p
    by_cases hk : k0 = k
    · subst hk
      simp [List.lookup] at h
    · have hne0 : (k0 == k) = false := beq_eq_false_iff_ne.mpr hk
      have hne1 : (k == k0) = false := beq_eq_false_iff_ne.mpr (fun hh => hk hh.symm)
      simp only [List.lookup, hne1] at h
      simp only [insertAssoc, hne0, if_false, List.cons_append, List.cons.injEq, true_and,
        Bool.false_eq_true]
      exact ih h

theorem lookup_of_mem_nodup {β : Type} : ∀ (l : List (String × β)),
    (l.map Prod.fst).Nodup → ∀ p ∈ l, List.lookup p.1 l = some p.2 := by
  intro l
  induction l with
  | nil => intro _ p hp; exact absurd hp (by simp)
  | cons q tl ih =>
    intro hnd p hp
    simp only [List.map_cons, List.nodup_cons] at hnd
    rcases List.mem_cons.mp hp with rfl | hmem
    · simp [List.lookup]
    · have hqp : q.1 ≠ p.1 := by
        intro hh
        exact hnd.1 (hh ▸ List.mem_map.mpr ⟨p, hmem, rfl⟩)
      have hne : (p.1 == q.1) = false := beq_eq_false_iff_ne.mpr (fun hh => hqp hh.symm)
      simp only [List.lookup, hne]
      exact ih hnd.2 p hmem

theorem buildFieldsAux_hasComposite (tn : String) :
    ∀ (fields : FieldList) (i : Nat) (m : StructMeta), plainFields fields = true →
      (buildFieldsAux tn fields i m).HasComposite = m.HasComposite
  | .fnil, _, _, _ => rfl
  | .fcons n ex tags ty tl, i, m, h => by
    simp only [plainFields, Bool.and_eq_true, Bool.not_eq_true'] at h
    obtain ⟨⟨⟨hex, _⟩, hcomp⟩, htl⟩ := h
    subst hex
    simp only [buildFieldsAux, hcomp, Bool.false_eq_true, if_false, if_true]
    rw [buildFieldsAux_hasComposite tn tl (i + 1) _ htl]
    by_cases htn : tn = ""
    · simp [htn]
    · by_cases htag : tagGet tags tn = "" <;> simp [htn, htag]

theorem keys_enumPlain (tn : String) :
    ∀ (fields : FieldList) (i : Nat), (enumPlain tn fields i).map Prod.fst = fieldNames fields
  | .fnil, _ => rfl
  | .fcons n ex tags ty tl, i => by
    simp only [enumPlain, List.map_cons, fieldNames, List.cons.injEq, true_and]
    exact keys_enumPlain tn tl (i + 1)

theorem buildFieldsAux_byName (tn : String) :
    ∀ (fields : FieldList) (i : Nat) (m : StructMeta), plainFields fields = true →
      (fieldNames fields).Nodup →
      (∀ nm ∈ fieldNames fields, List.lookup nm m.FieldsByName = none) →
      (buildFieldsAux tn fields i m).FieldsByName = m.FieldsByName ++ enumPlain tn fields i
  | .fnil, _, _, _, _, _ => by simp [buildFieldsAux, enumPlain]
  | .fcons n ex tags ty tl, i, m, h, hnd, hdisj => by
    simp only [plainFields, Bool.and_eq_true, Bool.not_eq_true'] at h
    obtain ⟨⟨⟨hex, hconv⟩, hcomp⟩, htl⟩ := h
    subst hex
    have hconv2 : tagGet tags "mapconv" = "" := eq_of_beq hconv
    simp only [fieldNames, List.nodup_cons] at hnd
    have hlook : List.lookup n m.FieldsByName = none := hdisj n (by simp [fieldNames])
    have step : ∀ (meta : FieldMetaM) (m3 : StructMeta),
        m3.FieldsByName = m.FieldsByName ++ [(n, meta)] →
        (buildFieldsAux tn tl (i + 1) m3).FieldsByName =
          m.FieldsByName ++ ((n, meta) :: enumPlain tn tl (i + 1)) := by
      intro meta m3 hm3
      rw [buildFieldsAux_byName tn tl (i + 1) m3 htl hnd.2 ?_, hm3, List.append_assoc,
        List.singleton_append]
      intro nm hnm
      rw [hm3]
      rw [lookup_append_none _ _ _ (hdisj nm (List.mem_cons_of_mem _ hnm))]
      have hne : (nm == n) = false :=
        beq_eq_false_iff_ne.mpr (fun hh => hnd.1 (hh ▸ hnm))
      simp [List.lookup, hne]
    by_cases htn : tn = ""
    · subst htn
      simp only [buildFieldsAux, hcomp, Bool.false_eq_true, if_false, if_true, hconv2,
        bne_self_eq_false, Bool.false_and, Bool.and_false, enumPlain]
      exact step _ _ (insertAssoc_append m.FieldsByName n _ hlook)
    · have htnb : (tn != "") = true := by simp [htn]
      by_cases htag : tagGet tags tn = ""
      · simp only [buildFieldsAux, hcomp, Bool.false_eq_true, if_false, if_true, hconv2,
          bne_self_eq_false, htnb, htag, Bool.true_and, Bool.and_false, enumPlain]
        exact step _ _ (insertAssoc_append m.FieldsByName n _ hlook)
      · have htagb : (tagGet tags tn != "") = true := by simp [htag]
        simp only [buildFieldsAux, hcomp, Bool.false_eq_true, if_false, if_true, hconv2,
          bne_self_eq_false, htnb, htagb, Bool.true_and, Bool.and_self, enumPlain]
        exact step _ _ (insertAssoc_append m.FieldsByName n _ hlook)

theorem buildStructMeta_hasComposite (tn nm : String) (fields : FieldList)
    (h : plainFields fields = true) :
    (buildStructMeta (.tStruct nm fields) tn).HasComposite = false := by
  simp only [buildStructMeta]
  rw [buildFieldsAux_hasComposite tn fields 0 _ h]

theorem buildStructMeta_byName (tn nm : String) (fields : FieldList)
    (h : plainFields fields = true) (hnd : (fieldNames fields).Nodup) :
    (buildStructMeta (.tStruct nm fields) tn).FieldsByName = enumPlain tn fields 0 := by
  simp only [buildStructMeta]
  rw [buildFieldsAux_byName tn fields 0
    { Typ := .tStruct nm fields, FieldsByName := [], FieldsByTag := [], HasComposite := false }
    h hnd (fun nm2 _ => rfl), List.nil_append]

theorem enumPlain_mem (tn : String) : ∀ (fields : FieldList) (i : Nat) (p : String × FieldMetaM),
    plainFields fields = true → p ∈ enumPlain tn fields i →
    p.2.ConvertTo = "" ∧ isCompositeTy p.2.Typ = false ∧
      ∃ j, p.2.Index = i + j ∧ fieldTyAt fields j = some p.2.Typ
  | .fnil, _, _, _, hp => absurd hp (by simp [enumPlain])
  | .fcons n ex tags ty tl, i, p, h, hp => by
    simp only [plainFields, Bool.and_eq_true, Bool.not_eq_true'] at h
    obtain ⟨⟨⟨_, hconv⟩, hcomp⟩, htl⟩ := h
    simp only [enumPlain, List.mem_cons] at hp
    rcases hp with rfl | hmem
    · exact ⟨eq_of_beq hconv, hcomp, 0, rfl, rfl⟩
    · obtain ⟨hc, hcp, j, hj, hty⟩ := enumPlain_mem tn tl (i + 1) p htl hmem
      exact ⟨hc, hcp, j + 1, by omega, hty⟩

theorem enumPlain_cover (tn : String) : ∀ (fields : FieldList) (i j : Nat) (t : Ty),
    fieldTyAt fields j = some t → ∃ p ∈ enumPlain tn fields i, p.2.Index = i + j
  | .fnil, _, j, _, h => by simp [fieldTyAt] at h
  | .fcons n ex tags ty tl, i, 0, t, h =>
    ⟨_, List.mem_cons_self _ _, rfl⟩
  | .fcons n ex tags ty tl, i, j + 1, t, h => by
    obtain ⟨p, hp, hidx⟩ := enumPlain_cover tn tl (i + 1) j t h
    exact ⟨p, List.mem_cons_of_mem _ hp, by omega⟩

theorem valsMatch_len : ∀ (fields : FieldList) (vs : VList),
    valsMatch fields vs = true → vs.len = numFields fields
  | .fnil, .vnil, _ => rfl
  | .fnil, .vcons _ _, h => by simp [valsMatch] at h
  | .fcons _ _ _ _ _, .vnil, h => by simp [valsMatch] at h
  | .fcons _ _ _ _ tl, .vcons _ vs, h => by
    simp only [valsMatch, Bool.and_eq_true] at h
    simp only [VList.len, numFields, valsMatch_len tl vs h.2]

theorem valsMatch_get : ∀ (fields : FieldList) (vs : VList) (j : Nat) (t : Ty),
    valsMatch fields vs = true → fieldTyAt fields j = some t → tyOfV (vs.get j) = t
  | .fnil, _, _, _, _, ht => by simp [fieldTyAt] at ht
  | .fcons _ _ _ _ _, .vnil, _, _, h, _ => by simp [valsMatch] at h
  | .fcons _ _ _ ty tl, .vcons v vs, 0, t, h, ht => by
    simp only [valsMatch, Bool.and_eq_true] at h
    simp only [fieldTyAt, Option.some.injEq] at ht
    subst ht
    exact eq_of_beq h.1
  | .fcons _ _ _ _ tl, .vcons _ vs, j + 1, t, h, ht => by
    simp only [valsMatch, Bool.and_eq_true] at h
    exact valsMatch_get tl vs j t h.2 ht

theorem valsMatch_set : ∀ (fields : FieldList) (vs : VList) (j : Nat) (v : Value),
    valsMatch fields vs = true → fieldTyAt fields j = some (tyOfV v) →
    valsMatch fields (vs.set j v) = true
  | .fnil, _, _, _, _, ht => by simp [fieldTyAt] at ht
  | .fcons _ _ _ _ _, .vnil, _, _, h, _ => by simp [valsMatch] at h
  | .fcons _ _ _ ty tl, .vcons v0 vs, 0, v, h, ht => by
    simp only [valsMatch, Bool.and_eq_true] at h
    simp only [fieldTyAt, Option.some.injEq] at ht
    subst ht
    simp [VList.set, valsMatch, h.2]
  | .fcons _ _ _ _ tl, .vcons _ vs, j + 1, v, h, ht => by
    simp only [valsMatch, Bool.and_eq_true] at h
    simp only [VList.set, valsMatch, Bool.and_eq_true]
    exact ⟨h.1, valsMatch_set tl vs j v h.2 ht⟩

theorem fieldTyAt_isSome : ∀ (fields : FieldList) (j : Nat), j < numFields fields →
    ∃ t, fieldTyAt fields j = some t
  | .fnil, j, h => by simp [numFields] at h
  | .fcons _ _ _ ty tl, 0, _ => ⟨ty, rfl⟩
  | .fcons _ _ _ _ tl, j + 1, h =>
    fieldTyAt_isSome tl j (by simp only [numFields] at h; omega)

theorem anv_plain (o : IterOracle) (d : Nat) (dst src : Value) (sst dstT : Ty)
    (bp fn tnm : String) (hs : isCompositeTy (tyOfV src) = false)
    (heq : tyOfV src = tyOfV dst) :
    (mkEngine o (d + 1)).assignNestedValue dst src sst dstT bp fn tnm "" = .ok src := by
  have hd : isCompositeTy (tyOfV dst) = false := heq ▸ hs
  simp only [mkEngine, bne_self_eq_false, Bool.false_and, Bool.false_eq_true, if_false,
    hs, hd, Bool.not_false, Bool.and_self, if_true, assignableTo, heq, beq_self_eq_true,
    reduceIte]

theorem overwriteAt_len (svals : VList) : ∀ (l : List (String × FieldMetaM)) (dvals : VList),
    (overwriteAt svals dvals l).len = dvals.len
  | [], _ => rfl
  | (_, m) :: rest, dvals => by
    simp only [overwriteAt, overwriteAt_len svals rest, VList.len_set]

theorem overwriteAt_get_not_mem (svals : VList) :
    ∀ (l : List (String × FieldMetaM)) (dvals : VList) (j : Nat),
    (∀ p ∈ l, p.2.Index ≠ j) → (overwriteAt svals dvals l).get j = dvals.get j
  | [], _, _, _ => rfl
  | (n, m) :: rest, dvals, j, h => by
    have hm : m.Index ≠ j := h (n, m) (List.mem_cons_self _ _)
    simp only [overwriteAt]
    rw [overwriteAt_get_not_mem svals rest _ j (fun p hp => h p (List.mem_cons_of_mem _ hp))]
    exact VList.get_set_ne dvals m.Index (svals.get m.Index) j (fun hh => hm hh.symm)

theorem overwriteAt_get_mem (svals : VList) :
    ∀ (l : List (String × FieldMetaM)) (dvals : VList) (j : Nat),
    j < dvals.len → (∃ p ∈ l, p.2.Index = j) →
    (overwriteAt svals dvals l).get j = svals.get j
  | [], _, _, _, hex => absurd hex (by simp)
  | (n, m) :: rest, dvals, j, hj, hex => by
    by_cases hrest : ∃ p ∈ rest, p.2.Index = j
    · simp only [overwriteAt]
      exact overwriteAt_get_mem svals rest _ j (by rw [VList.len_set]; exact hj) hrest
    · obtain ⟨p, hp, hpj⟩ := hex
      rcases List.mem_cons.mp hp with rfl | hmem
      · simp only [overwriteAt]
        rw [overwriteAt_get_not_mem svals rest _ j (fun q hq hh => hrest ⟨q, hq, hh⟩)]
        have hmj : m.Index = j := hpj
        subst hmj
        exact VList.get_set_self dvals m.Index _ hj
      · exact absurd ⟨p, hmem, hpj⟩ hrest

theorem structLoop_plain (o : IterOracle) (d : Nat) (sst dstT : Ty) (fp tn name : String)
    (fields : FieldList) (svals : VList) (srcMeta : StructMeta)
    (hpf : plainFields fields = true) (hnd : (fieldNames fields).Nodup)
    (hsv : valsMatch fields svals = true)
    (hsm : srcMeta.FieldsByName = enumPlain tn fields 0) :
    ∀ (l : List (String × FieldMetaM)) (dvals : VList),
    (∀ p ∈ l, p ∈ enumPlain tn fields 0) →
    valsMatch fields dvals = true →
    structLoop ((mkEngine o (d + 1)).assignNestedValue) (.vStruct name fields svals) srcMeta
      sst dstT fp tn l (.vStruct name fields dvals) =
      .ok (.vStruct name fields (overwriteAt svals dvals l))
  | [], dvals, _, _ => rfl
  | (dn, dm) :: rest, dvals, hl, hdv => by
    have hmem : (dn, dm) ∈ enumPlain tn fields 0 := hl _ (List.mem_cons_self _ _)
    have hkeys : ((enumPlain tn fields 0).map Prod.fst).Nodup := by
      rw [keys_enumPlain]; exact hnd
    have hlook : List.lookup dn srcMeta.FieldsByName = some dm := by
      rw [hsm]; exact lookup_of_mem_nodup _ hkeys (dn, dm) hmem
    obtain ⟨hconv0, hcompm0, j, hidx0, hty0⟩ := enumPlain_mem tn fields 0 (dn, dm) hpf hmem
    have hconv : dm.ConvertTo = "" := hconv0
    have hcompm : isCompositeTy dm.Typ = false := hcompm0
    have hty : fieldTyAt fields j = some dm.Typ := hty0
    have hidx1 : dm.Index = 0 + j := hidx0
    have hidx : dm.Index = j := by omega
    have hsty : tyOfV (svals.get dm.Index) = dm.Typ := by
      rw [hidx]; exact valsMatch_get fields svals j dm.Typ hsv hty
    have hdty : tyOfV (dvals.get dm.Index) = dm.Typ := by
      rw [hidx]; exact valsMatch_get fields dvals j dm.Typ hdv hty
    have hanv : (mkEngine o (d + 1)).assignNestedValue (dvals.get dm.Index) (svals.get dm.Index)
        sst dstT fp dn tn "" = .ok (svals.get dm.Index) :=
      anv_plain o d _ _ sst dstT fp dn tn (by rw [hsty]; exact hcompm) (by rw [hsty, hdty])
    have hrec := structLoop_plain o d sst dstT fp tn name fields svals srcMeta hpf hnd hsv hsm rest
      (dvals.set dm.Index (svals.get dm.Index))
      (fun p hp => hl p (List.mem_cons_of_mem _ hp))
      (valsMatch_set fields dvals dm.Index (svals.get dm.Index) hdv (by rw [hsty, hidx]; exact hty))
    simp only [structLoop, hlook, structVals, hconv]
    rw [hanv]
    simp only [setStructField, overwriteAt]
    exact hrec

/-- C9: corrected.  The whole-record-copy fast path of `assignStruct` is
equivalent to the general per-field path only under the amended
precondition: every declared field exported, conversion-directive-free, and
of non-composite type, with distinct field names and well-typed field
values on both sides.  Then, for every iteration order of the destination
field table that enumerates exactly the declared entries, both paths return
the source record unchanged, for every initial destination value. -/
theorem claim_C9 (o : IterOracle) (d : Nat) (sst dstT : Ty) (fp tn name : String)
    (fields : FieldList) (svals dvals : VList)
    (hpf : plainFields fields = true) (hnd : (fieldNames fields).Nodup)
    (hsv : valsMatch fields svals = true) (hdv : valsMatch fields dvals = true)
    (hord : ∀ p, p ∈ o.fieldOrd (enumPlain tn fields 0) ↔ p ∈ enumPlain tn fields 0) :
    (mkEngine o (d + 1)).assignStruct (.vStruct name fields dvals) (.vStruct name fields svals)
        sst dstT fp tn = .ok (.vStruct name fields svals) ∧
    assignStructGeneral o (.vStruct name fields dvals) (.vStruct name fields svals)
        sst dstT fp tn (d + 1) = .ok (.vStruct name fields svals) := by
  have hhc := buildStructMeta_hasComposite tn name fields hpf
  have hsm := buildStructMeta_byName tn name fields hpf hnd
  constructor
  · simp only [mkEngine, tyOfV_vStruct, getStructMeta, isStructTy_tStruct, if_true, hhc,
      beq_self_eq_true, Bool.not_false, Bool.and_self, reduceIte]
  · simp only [assignStructGeneral, tyOfV_vStruct, getStructMeta, isStructTy_tStruct, if_true,
      hsm, reduceIte]
    rw [structLoop_plain o d sst dstT fp tn name fields svals _ hpf hnd hsv hsm
      (o.fieldOrd (enumPlain tn fields 0)) dvals (fun p hp => (hord p).mp hp) hdv]
    have hlen1 : dvals.len = numFields fields := valsMatch_len fields dvals hdv
    have hlen2 : svals.len = numFields fields := valsMatch_len fields svals hsv
    have hover : overwriteAt svals dvals (o.fieldOrd (enumPlain tn fields 0)) = svals := by
      apply VList.ext
      · rw [overwriteAt_len, hlen1, hlen2]
      · intro j hj
        rw [overwriteAt_len, hlen1] at hj
        obtain ⟨t, ht⟩ := fieldTyAt_isSome fields j hj
        obtain ⟨p, hp, hpidx⟩ := enumPlain_cover tn fields 0 j t ht
        exact overwriteAt_get_mem svals _ dvals j (by omega) ⟨p, (hord p).mpr hp, by omega⟩
    rw [hover]

/-- C9 counterexample: on a record type with an unexported field, the fast
path copies the whole record (unexported field included) while the general
per-field path skips the unexported field, leaving its prior destination
value — the two paths disagree, refuting unconditional equivalence. -/
theorem claim_C9_cex :
    (mkEngine idOracle 1).assignStruct C9UDst C9USrc C9UTy C9UTy "" "" = .ok C9USrc ∧
    assignStructGeneral idOracle C9UDst C9USrc C9UTy C9UTy "" "" 1 = .ok C9UGeneral ∧
    C9USrc ≠ C9UGeneral :=
  ⟨rfl, rfl, by decide⟩

/-- C9 witness: the amended equivalence at a one-field plain record. -/
theorem claim_C9_witness :
    (mkEngine idOracle 1).assignStruct
        (.vStruct "mapper.P" (.fcons "A" true [] (.tInt .iPlain) .fnil) (.vcons (.vInt .iPlain 9) .vnil))
        (.vStruct "mapper.P" (.fcons "A" true [] (.tInt .iPlain) .fnil) (.vcons (.vInt .iPlain 1) .vnil))
        (.tStruct "mapper.P" (.fcons "A" true [] (.tInt .iPlain) .fnil))
        (.tStruct "mapper.P" (.fcons "A" true [] (.tInt .iPlain) .fnil)) "" "" =
      .ok (.vStruct "mapper.P" (.fcons "A" true [] (.tInt .iPlain) .fnil) (.vcons (.vInt .iPlain 1) .vnil)) ∧
    assignStructGeneral idOracle
        (.vStruct "mapper.P" (.fcons "A" true [] (.tInt .iPlain) .fnil) (.vcons (.vInt .iPlain 9) .vnil))
        (.vStruct "mapper.P" (.fcons "A" true [] (.tInt .iPlain) .fnil) (.vcons (.vInt .iPlain 1) .vnil))
        (.tStruct "mapper.P" (.fcons "A" true [] (.tInt .iPlain) .fnil))
        (.tStruct "mapper.P" (.fcons "A" true [] (.tInt .iPlain) .fnil)) "" "" 1 =
      .ok (.vStruct "mapper.P" (.fcons "A" true [] (.tInt .iPlain) .fnil) (.vcons (.vInt .iPlain 1) .vnil)) :=
  claim_C9 idOracle 0 (.tStruct "mapper.P" (.fcons "A" true [] (.tInt .iPlain) .fnil))
    (.tStruct "mapper.P" (.fcons "A" true [] (.tInt .iPlain) .fnil)) "" "" "mapper.P"
    (.fcons "A" true [] (.tInt .iPlain) .fnil)
    (.vcons (.vInt .iPlain 1) .vnil) (.vcons (.vInt .iPlain 9) .vnil)
    (by decide) (by decide) (by decide) (by decide) (fun p => Iff.rfl)



/-! ### Iteration-order determinism (claim C10) -/

theorem assignValue_plain (o : IterOracle) (D : Nat) (dst src : Value) (sst dstT : Ty)
    (fp tnm : String) (hD : 0 < D) (hs : isCompositeTy (tyOfV src) = false)
    (heq : tyOfV src = tyOfV dst) :
    (mkEngine o D).assignValue dst src sst dstT fp "" tnm = .ok src := by
  obtain ⟨d, rfl⟩ : ∃ d, D = d + 1 := ⟨D - 1, by omega⟩
  have hd : isCompositeTy (tyOfV dst) = false := heq ▸ hs
  simp only [isCompositeTy, Bool.or_eq_false_iff] at hs hd
  obtain ⟨⟨⟨hsS, hsL⟩, hsM⟩, hsP⟩ := hs
  obtain ⟨⟨⟨hdS, hdL⟩, hdM⟩, hdP⟩ := hd
  simp only [mkEngine, bne_self_eq_false, Bool.false_and, Bool.false_eq_true, if_false,
    hsS, hsL, hsM, hsP, hdS, hdL, hdM, hdP, Bool.and_false, Bool.and_self, Bool.not_false,
    assignableTo, heq, beq_self_eq_true, if_true, reduceIte]

theorem rootLoop_plain (o : IterOracle) (cfg : Config) (name : String) (fields : FieldList)
    (svals : VList) (srcMeta : StructMeta) (srcType dstType : Ty)
    (hz : cfg.ignoreZeroSource = false) (hmd : 0 < cfg.maxDepth)
    (hpf : plainFields fields = true) (hnd : (fieldNames fields).Nodup)
    (hsv : valsMatch fields svals = true)
    (hsm : srcMeta.FieldsByName = enumPlain cfg.tagName fields 0) :
    ∀ (l : List (String × FieldMetaM)) (dvals : VList),
    (∀ p ∈ l, p ∈ enumPlain cfg.tagName fields 0) →
    valsMatch fields dvals = true →
    rootLoop o cfg (.vStruct name fields svals) srcMeta srcType dstType l
      (.vStruct name fields dvals) =
      .ok (.vStruct name fields (overwriteAt svals dvals l))
  | [], dvals, _, _ => rfl
  | (dn, dm) :: rest, dvals, hl, hdv => by
    have hmem : (dn, dm) ∈ enumPlain cfg.tagName fields 0 := hl _ (List.mem_cons_self _ _)
    have hkeys : ((enumPlain cfg.tagName fields 0).map Prod.fst).Nodup := by
      rw [keys_enumPlain]; exact hnd
    have hlook : List.lookup dn srcMeta.FieldsByName = some dm := by
      rw [hsm]; exact lookup_of_mem_nodup _ hkeys (dn, dm) hmem
    obtain ⟨hconv0, hcompm0, j, hidx0, hty0⟩ := enumPlain_mem cfg.tagName fields 0 (dn, dm) hpf hmem
    have hconv : dm.ConvertTo = "" := hconv0
    have hcompm : isCompositeTy dm.Typ = false := hcompm0
    have hty : fieldTyAt fields j = some dm.Typ := hty0
    have hidx1 : dm.Index = 0 + j := hidx0
    have hidx : dm.Index = j := by omega
    have hsty : tyOfV (svals.get dm.Index) = dm.Typ := by
      rw [hidx]; exact valsMatch_get fields svals j dm.Typ hsv hty
    have hdty : tyOfV (dvals.get dm.Index) = dm.Typ := by
      rw [hidx]; exact valsMatch_get fields dvals j dm.Typ hdv hty
    have hav : (mkEngine o cfg.maxDepth).assignValue (dvals.get dm.Index) (svals.get dm.Index)
        srcType dstType dn "" cfg.tagName = .ok (svals.get dm.Index) :=
      assignValue_plain o cfg.maxDepth _ _ srcType dstType dn cfg.tagName hmd
        (by rw [hsty]; exact hcompm) (by rw [hsty, hdty])
    have hrec := rootLoop_plain o cfg name fields svals srcMeta srcType dstType hz hmd hpf hnd
      hsv hsm rest (dvals.set dm.Index (svals.get dm.Index))
      (fun p hp => hl p (List.mem_cons_of_mem _ hp))
      (valsMatch_set fields dvals dm.Index (svals.get dm.Index) hdv (by rw [hsty, hidx]; exact hty))
    simp only [rootLoop, hlook, structVals, hconv, hz, Bool.false_and, Bool.false_eq_true,
      if_false]
    rw [hav]
    simp only [setStructField, overwriteAt]
    exact hrec

theorem mapO_plain (o : IterOracle) (pt : Ty) (name : String) (fields : FieldList)
    (svals dvals : VList)
    (hpf : plainFields fields = true) (hnd : (fieldNames fields).Nodup)
    (hsv : valsMatch fields svals = true) (hdv : valsMatch fields dvals = true)
    (hord : ∀ p, p ∈ o.fieldOrd (enumPlain "map" fields 0) ↔ p ∈ enumPlain "map" fields 0) :
    MapO o (.gVal (.vPtrMk pt (.vStruct name fields dvals))) (.gVal (.vStruct name fields svals)) =
      .ok (.vStruct name fields svals) := by
  have hsm : (buildStructMeta (.tStruct name fields) "map").FieldsByName = enumPlain "map" fields 0 :=
    buildStructMeta_byName "map" name fields hpf hnd
  simp only [MapO, MapWithOptionsO, List.foldl, runMappingO, gVal_beq_gNil, Bool.or_self,
    Bool.false_eq_true, if_false, tyOfV_vStruct, isStructTy_tStruct, Bool.not_true,
    getStructMeta, if_true, reduceIte, defaultConfig, hsm]
  rw [rootLoop_plain o ⟨"map", false, false, DefaultMaxDepth⟩ name fields svals _ _ _
    rfl (by decide) hpf hnd hsv hsm (o.fieldOrd (enumPlain "map" fields 0)) dvals
    (fun p hp => (hord p).mp hp) hdv]
  have hlen1 : dvals.len = numFields fields := valsMatch_len fields dvals hdv
  have hlen2 : svals.len = numFields fields := valsMatch_len fields svals hsv
  have hover : overwriteAt svals dvals (o.fieldOrd (enumPlain "map" fields 0)) = svals := by
    apply VList.ext
    · rw [overwriteAt_len, hlen1, hlen2]
    · intro j hj
      rw [overwriteAt_len, hlen1] at hj
      obtain ⟨t, ht⟩ := fieldTyAt_isSome fields j hj
      obtain ⟨p, hp, hpidx⟩ := enumPlain_cover "map" fields 0 j t ht
      exact overwriteAt_get_mem svals _ dvals j (by omega) ⟨p, (hord p).mpr hp, by omega⟩
  rw [hover]

/-- C10 counterexample: with a map field whose `int16` keys 1 and 257 both
convert to `int8` key 1, declaration-order and reversed-order entry
iteration both succeed but keep different surviving values — Map is not
unconditionally deterministic across iteration orders. -/
theorem claim_C10_cex :
    MapO idOracle (.gVal (.vPtrMk C10DstTy (zeroValue C10DstTy))) (.gVal C10SrcVal) = .ok C10OutFwd ∧
    MapO revOracle (.gVal (.vPtrMk C10DstTy (zeroValue C10DstTy))) (.gVal C10SrcVal) = .ok C10OutRev ∧
    C10OutFwd ≠ C10OutRev :=
  ⟨rfl, rfl, by decide⟩

/-- C10: corrected.  Determinism across iteration orders holds on the plain
fragment: when the shared record type's fields are all exported,
directive-free and non-composite, with distinct names and well-typed
values, any two faithful iteration orders give equal (successful) results.
Unconditionally the claim fails: merely-convertible map keys can collide
after conversion, making even successful results iteration-order
dependent. -/
theorem claim_C10 (o₁ o₂ : IterOracle) (pt : Ty) (name : String) (fields : FieldList)
    (svals dvals : VList)
    (hpf : plainFields fields = true) (hnd : (fieldNames fields).Nodup)
    (hsv : valsMatch fields svals = true) (hdv : valsMatch fields dvals = true)
    (hord₁ : ∀ p, p ∈ o₁.fieldOrd (enumPlain "map" fields 0) ↔ p ∈ enumPlain "map" fields 0)
    (hord₂ : ∀ p, p ∈ o₂.fieldOrd (enumPlain "map" fields 0) ↔ p ∈ enumPlain "map" fields 0) :
    MapO o₁ (.gVal (.vPtrMk pt (.vStruct name fields dvals))) (.gVal (.vStruct name fields svals)) =
      MapO o₂ (.gVal (.vPtrMk pt (.vStruct name fields dvals))) (.gVal (.vStruct name fields svals)) ∧
    MapO o₁ (.gVal (.vPtrMk pt (.vStruct name fields dvals))) (.gVal (.vStruct name fields svals)) =
      .ok (.vStruct name fields svals) :=
  ⟨(mapO_plain o₁ pt name fields svals dvals hpf hnd hsv hdv hord₁).trans
    (mapO_plain o₂ pt name fields svals dvals hpf hnd hsv hdv hord₂).symm,
   mapO_plain o₁ pt name fields svals dvals hpf hnd hsv hdv hord₁⟩

/-- C10 witness: the amended determinism at a one-field plain record, under
the declaration-order and the reversed-entry oracles. -/
theorem claim_C10_witness :
    MapO idOracle
        (.gVal (.vPtrMk (.tStruct "mapper.Q" (.fcons "A" true [] (.tInt .iPlain) .fnil))
          (.vStruct "mapper.Q" (.fcons "A" true [] (.tInt .iPlain) .fnil) (.vcons (.vInt .iPlain 9) .vnil))))
        (.gVal (.vStruct "mapper.Q" (.fcons "A" true [] (.tInt .iPlain) .fnil) (.vcons (.vInt .iPlain 1) .vnil))) =
      MapO revOracle
        (.gVal (.vPtrMk (.tStruct "mapper.Q" (.fcons "A" true [] (.tInt .iPlain) .fnil))
          (.vStruct "mapper.Q" (.fcons "A" true [] (.tInt .iPlain) .fnil) (.vcons (.vInt .iPlain 9) .vnil))))
        (.gVal (.vStruct "mapper.Q" (.fcons "A" true [] (.tInt .iPlain) .fnil) (.vcons (.vInt .iPlain 1) .vnil))) ∧
    MapO idOracle
        (.gVal (.vPtrMk (.tStruct "mapper.Q" (.fcons "A" true [] (.tInt .iPlain) .fnil))
          (.vStruct "mapper.Q" (.fcons "A" true [] (.tInt .iPlain) .fnil) (.vcons (.vInt .iPlain 9) .vnil))))
        (.gVal (.vStruct "mapper.Q" (.fcons "A" true [] (.tInt .iPlain) .fnil) (.vcons (.vInt .iPlain 1) .vnil))) =
      .ok (.vStruct "mapper.Q" (.fcons "A" true [] (.tInt .iPlain) .fnil) (.vcons (.vInt .iPlain 1) .vnil)) :=
  claim_C10 idOracle revOracle (.tStruct "mapper.Q" (.fcons "A" true [] (.tInt .iPlain) .fnil))
    "mapper.Q" (.fcons "A" true [] (.tInt .iPlain) .fnil)
    (.vcons (.vInt .iPlain 1) .vnil) (.vcons (.vInt .iPlain 9) .vnil)
    (by decide) (by decide) (by decide) (by decide) (fun p => Iff.rfl) (fun p => Iff.rfl)

end Mapper
